import Mathlib

/-!
# SA_Sys inventory backend: stock deduction, ledger and BOM maintenance

A shallow embedding of the request handlers of `src/server/index.js` that mutate
stock, the transaction ledger, the bill of materials, users and products:

* `POST /api/stock/adjust`                           (`stockAdjust`)
* `POST /api/shopify/webhook`                        (`shopifyWebhook`)
* `DELETE /api/bom/:variant/component/:componentCode` (`deleteBomComponent`)
* `POST /api/users`, `DELETE /api/users/:id`          (`createUser`, `deleteUser`)
* `POST /api/products`                               (`createProduct`)

Modelling conventions.

* The JSON document is the record `DB`; a handler is a function from the document
  read by `readDB` to a `Reply` holding the HTTP status and the document as it
  stands afterwards (the document passed to `writeDB`, or the unchanged one when
  the handler returns early).
* Numbers of the document are integers (`Int`); JavaScript doubles agree with them
  on `+`, `-`, `*`, `Math.max` and `Math.floor (a / b)` as long as the values stay
  below `2 ^ 53` in absolute value.
* A JavaScript object used as a map (`shopifySkus`, `bom`, `VARIANT_VOLUMES`) is an
  association list in key insertion order, with pairwise distinct keys.
* A property that may be missing or `null` is an `Option`.
* Strings are Lean strings, handled through their list of characters; all the
  patterns the handlers look for are ASCII, so working on code points or on UTF-16
  units makes no difference.
* `Array.prototype.find` returns a reference into the array that is then mutated in
  place; here `findRef` returns the index together with the element and the
  mutation is a `List.set` at that index.
* `Date.now ()` and `new Date ().toISOString ()` are read from a `Clock` value that is
  an input of the handler.
-/

namespace SASys

/-! ## JavaScript string helpers -/

/-- `s.startsWith (p)`. -/
def startsWith (s p : String) : Bool :=
  p.data.isPrefixOf s.data

/-- `s.substring (n)`: the text from position `n` to the end. -/
def substring (s : String) (n : Nat) : String :=
  String.mk (s.data.drop n)

/-- Is `pat` a contiguous part of the character list `cs`? -/
def includesChars (pat : List Char) : List Char → Bool
  | [] => pat.isEmpty
  | c :: cs => pat.isPrefixOf (c :: cs) || includesChars pat cs

/-- `s.includes (pat)`. -/
def includes (s pat : String) : Bool :=
  includesChars pat.data s.data

/-- Replace the first occurrence of `pat` in `cs` by `rep`. -/
def replaceFirstChars (pat rep : List Char) : List Char → List Char
  | [] => if pat.isEmpty then rep else []
  | c :: cs =>
    if pat.isPrefixOf (c :: cs) then rep ++ (c :: cs).drop pat.length
    else c :: replaceFirstChars pat rep cs

/-- `s.replace (pat, rep)` with a string pattern: only the first occurrence is replaced. -/
def replace (s pat rep : String) : String :=
  String.mk (replaceFirstChars pat.data rep.data s.data)

/-- `x || d` for a string that may be missing: the empty string is falsy. -/
def strOr (x : Option String) (d : String) : String :=
  match x with
  | some s => if s = "" then d else s
  | none => d

/-- `x || d` for a number that may be missing: zero is falsy. -/
def numOr (x : Option Int) (d : Int) : Int :=
  match x with
  | some n => if n = 0 then d else n
  | none => d

/-- White space skipped by `parseInt` (ECMAScript `StrWhiteSpaceChar`). -/
def isStrWhiteSpace (c : Char) : Bool :=
  c.toNat ∈ [0x9, 0xA, 0xB, 0xC, 0xD, 0x20, 0xA0, 0x1680, 0x2000, 0x2001, 0x2002, 0x2003,
    0x2004, 0x2005, 0x2006, 0x2007, 0x2008, 0x2009, 0x200A, 0x2028, 0x2029, 0x202F, 0x205F,
    0x3000, 0xFEFF]

/-- Value of a character as a digit in the given radix (10 or 16). -/
def digitValue (radix : Nat) (c : Char) : Option Nat :=
  if '0' ≤ c ∧ c ≤ '9' then some (c.toNat - '0'.toNat)
  else if radix = 16 ∧ 'a' ≤ c ∧ c ≤ 'f' then some (c.toNat - 'a'.toNat + 10)
  else if radix = 16 ∧ 'A' ≤ c ∧ c ≤ 'F' then some (c.toNat - 'A'.toNat + 10)
  else none

/-- The digits at the front of `cs`, most significant first. -/
def leadingDigits (radix : Nat) : List Char → List Nat
  | [] => []
  | c :: cs =>
    match digitValue radix c with
    | some d => d :: leadingDigits radix cs
    | none => []

/-- Value of a digit list, most significant digit first. -/
def digitsValue (radix : Nat) (ds : List Nat) : Nat :=
  ds.foldl (fun acc d => acc * radix + d) 0

/-- `parseInt (s)` without a radix argument; `none` stands for `NaN`. -/
def parseInt (s : String) : Option Int :=
  let cs := s.data.dropWhile isStrWhiteSpace
  let signed : Bool × List Char :=
    match cs with
    | '-' :: r => (true, r)
    | '+' :: r => (false, r)
    | _ => (false, cs)
  let based : Nat × List Char :=
    match signed.2 with
    | '0' :: 'x' :: r => (16, r)
    | '0' :: 'X' :: r => (16, r)
    | r => (10, r)
  let ds := leadingDigits based.1 based.2
  if ds.isEmpty then none
  else
    let v : Int := (digitsValue based.1 ds : Nat)
    some (if signed.1 then -v else v)

/-- First match of the regular expression `/\d+/`: the first maximal run of ASCII digits. -/
def firstDigitRun : List Char → Option (List Char)
  | [] => none
  | c :: cs =>
    if c.isDigit then some ((c :: cs).takeWhile Char.isDigit)
    else firstDigitRun cs

/-! ## Data model -/

/-- A user record. -/
structure User where
  id : Int
  name : String
  password : String
  role : String
  createdAt : String
deriving DecidableEq, Repr

/-- A product of the `products` collection. -/
structure Product where
  id : String
  tag : String
  productCode : String
  name : String
  category : String
  unit : String
  currentStock : Int
  minStockLevel : Int
  shopifySkus : Option (List (String × String))
  supplier : String
  supplierCode : String
  unitPerBox : Option Int
  stockBoxes : Int
  createdAt : String
deriving DecidableEq, Repr

/-- An entry of the `transactions` ledger. -/
structure Transaction where
  id : String
  productId : String
  productCode : String
  productName : String
  category : String
  type : String
  quantity : Int
  unit : String
  balanceAfter : Int
  notes : String
  shopifyOrderId : Option Int
  createdAt : String
deriving DecidableEq, Repr

/-- The `quantity` of a BOM component: a number, free text, or missing. -/
inductive BomQuantity where
  | num (n : Int)
  | text (s : String)
  | missing
deriving DecidableEq, Repr

/-- A component line of a bill of materials. -/
structure BomItem where
  seq : Int
  componentCode : Option String
  componentName : String
  quantity : BomQuantity
deriving DecidableEq, Repr

/-- A line item of an incoming order. -/
structure LineItem where
  sku : Option String
  quantity : Option Int
deriving DecidableEq, Repr

/-- The order payload received by the webhook. -/
structure Order where
  id : Option Int
  order_number : Option String
  fulfillment_status : Option String
  line_items : Option (List LineItem)
deriving DecidableEq, Repr

/-- An entry of the `shopify_orders` log. -/
structure OrderLog where
  id : Int
  orderNumber : String
  fulfillmentStatus : String
  lineItems : Option (List LineItem)
  receivedAt : String
deriving DecidableEq, Repr

/-- The persisted JSON document (the `attachments` collection, which none of the
handlers below reads or writes, is left out). -/
structure DB where
  users : List User
  products : List Product
  transactions : List Transaction
  bom : Option (List (String × List BomItem))
  shopify_orders : Option (List OrderLog)
deriving DecidableEq, Repr

/-- The readings of the system clock used by a request. -/
structure Clock where
  now : Int
  iso : String
deriving DecidableEq, Repr

/-- Outcome of a request: HTTP status and the document afterwards. -/
structure Reply where
  status : Nat
  db : DB
deriving DecidableEq, Repr

/-! ## Array helpers -/

/-- `Array.prototype.find` as a reference: index and value of the first element that
satisfies `p`. -/
def findRef {α : Type} (p : α → Bool) : List α → Option (Nat × α)
  | [] => none
  | x :: xs =>
    if p x then some (0, x)
    else (findRef p xs).map (fun r => (r.1 + 1, r.2))

/-- `Array.prototype.findIndex`, with `none` for `-1`. -/
def findIndex {α : Type} (p : α → Bool) (xs : List α) : Option Nat :=
  (findRef p xs).map Prod.fst

/-- `obj[key] = value` on an object that is used as a map. -/
def setKey {β : Type} (key : String) (value : β) : List (String × β) → List (String × β)
  | [] => [(key, value)]
  | (k, v) :: rest =>
    if k == key then (k, value) :: rest else (k, v) :: setKey key value rest

/-! ## `POST /api/stock/adjust` -/

/-- The body of a stock adjustment request. -/
structure AdjustRequest where
  productId : String
  quantity : Int
  type : String
  notes : Option String
deriving DecidableEq, Repr

/-- The "update boxes if applicable" step: `stockBoxes` is recomputed from
`currentStock` when `unitPerBox` is present and greater than one. -/
def updateBoxes (p : Product) : Product :=
  match p.unitPerBox with
  | some u => if u > 1 then { p with stockBoxes := Int.fdiv p.currentStock u } else p
  | none => p

/-- The handler of `POST /api/stock/adjust`. -/
def stockAdjust (clock : Clock) (req : AdjustRequest) (db : DB) : Reply :=
  match findRef (fun p => p.id == req.productId) db.products with
  | none => { status := 404, db := db }
  | some (i, product) =>
    let oldStock := product.currentStock
    let product1 : Product :=
      { product with
        currentStock := if req.type = "add" then oldStock + req.quantity
                        else oldStock - req.quantity }
    let product2 := updateBoxes product1
    let transaction : Transaction :=
      { id := toString (db.transactions.length + 1)
        productId := product2.id
        productCode := product2.productCode
        productName := product2.name
        category := product2.category
        type := req.type
        quantity := req.quantity
        unit := product2.unit
        balanceAfter := product2.currentStock
        notes := strOr req.notes ""
        shopifyOrderId := none
        createdAt := clock.iso }
    { status := 200
      db := { db with
        products := db.products.set i product2
        transactions := transaction :: db.transactions } }

/-! ## `POST /api/shopify/webhook` -/

/-- Oil volume per variant, in mL. -/
def VARIANT_VOLUMES : List (String × Int) :=
  [("SA_CA", 400), ("SA_HF", 500), ("SA_CDIFF", 700), ("SA_1L", 1000), ("SA_PRO", 1000)]

/-- The loop over `Object.keys (VARIANT_VOLUMES)`: the first key `variant` such that
the SKU starts with `variant + '_'`, with the rest of the SKU as oil id. -/
def parseSkuLoop (sku : String) : List String → Option (String × String)
  | [] => none
  | variant :: rest =>
    if sku ≠ "" ∧ startsWith sku (variant ++ "_") then
      some (variant, substring sku (variant.length + 1))
    else parseSkuLoop sku rest

/-- The pair `(variantKey, oilId)` parsed from a SKU; `none` when both stay `null`. -/
def parseSku (sku : Option String) : Option (String × String) :=
  match sku with
  | none => none
  | some s => parseSkuLoop s (VARIANT_VOLUMES.map Prod.fst)

/-- The predicate of the oil lookup: category `OILS` and `shopifySkus[variantKey] === sku`. -/
def isOilFor (variantKey sku : String) (p : Product) : Bool :=
  match p.shopifySkus with
  | none => false
  | some skus => p.category == "OILS" && skus.lookup variantKey == some sku

/-- The predicate of the direct lookup: `Object.values (p.shopifySkus).includes (sku)`. -/
def hasSku (sku : Option String) (p : Product) : Bool :=
  match p.shopifySkus, sku with
  | some skus, some s => (skus.map Prod.snd).contains s
  | _, _ => false

/-- The transaction written by the webhook for a deduction on `p`. -/
def removalTransaction (clock : Clock) (order : Order) (ledgerLength : Nat) (p : Product)
    (quantity : Int) (notes : String) : Transaction :=
  { id := toString (ledgerLength + 1)
    productId := p.id
    productCode := p.productCode
    productName := p.name
    category := p.category
    type := "remove"
    quantity := quantity
    unit := p.unit
    balanceAfter := p.currentStock
    notes := notes
    shopifyOrderId := some (numOr order.id clock.now)
    createdAt := clock.iso }

/-- The text `Shopify Order #<order_number or N/A>` that starts every note. -/
def orderNote (order : Order) : String :=
  "Shopify Order #" ++ strOr order.order_number "N/A"

/-- Step 1, "deduct oil first": the oil found at index `i` loses
`VARIANT_VOLUMES[variantKey] * quantity`, clamped at zero, and a transaction is put at
the head of the ledger. -/
def deductOil (clock : Clock) (order : Order) (variantKey : String) (quantity : Int)
    (i : Nat) (oilProduct : Product) (db : DB) : DB :=
  let oilVolume := (VARIANT_VOLUMES.lookup variantKey).getD 0
  let totalOilDeduction := oilVolume * quantity
  let oldOilStock := oilProduct.currentStock
  let oilProduct1 : Product :=
    { oilProduct with currentStock := max 0 (oldOilStock - totalOilDeduction) }
  { db with
    products := db.products.set i oilProduct1
    transactions :=
      removalTransaction clock order db.transactions.length oilProduct1 totalOilDeduction
        (orderNote order ++ " - " ++ variantKey) :: db.transactions }

/-- The test that makes the cascade skip a BOM row (header rows and empty entries). -/
def skipBomItem (bomItem : BomItem) : Bool :=
  match bomItem.componentCode with
  | none => true
  | some code =>
    code == "" || code == "PRODUCT_CODE" || includes code "Oil Cartridge" ||
      includes code "Oil Refill" || includes code "Bottle"

/-- The component lookup: exact `productCode` first, then with `SA_RAWM_` turned into
`SA_RM_` when nothing was found and the code contains `SA_RAWM_`. -/
def findComponent (products : List Product) (componentCode : String) : Option (Nat × Product) :=
  match findRef (fun p => p.productCode == componentCode) products with
  | some r => some r
  | none =>
    if includes componentCode "SA_RAWM_" then
      findRef (fun p => p.productCode == replace componentCode "SA_RAWM_" "SA_RM_") products
    else none

/-- The quantity parsing of the cascade: `parseInt (quantity) || 0`, and when that is
zero and the quantity is truthy, the first run of digits of the text. -/
def parseQuantity (quantity : BomQuantity) : Int :=
  match quantity with
  | .num n => n
  | .missing => 0
  | .text s =>
    let qty := (parseInt s).getD 0
    if qty = 0 ∧ s ≠ "" then
      match firstDigitRun s.data with
      | some run => (parseInt (String.mk run)).getD 0
      | none => qty
    else qty

/-- The deduction of step 2 on the component found at index `j`: it loses
`qty * quantity`, clamped at zero, its boxes are updated, and a transaction is put at the
head of the ledger. -/
def deductComponent (clock : Clock) (order : Order) (variantKey : String) (quantity qty : Int)
    (j : Nat) (component : Product) (db : DB) : DB :=
  let totalComponentDeduction := qty * quantity
  let oldStock := component.currentStock
  let component1 := updateBoxes
    { component with currentStock := max 0 (oldStock - totalComponentDeduction) }
  { db with
    products := db.products.set j component1
    transactions :=
      removalTransaction clock order db.transactions.length component1
        totalComponentDeduction (orderNote order ++ " - BOM " ++ variantKey)
        :: db.transactions }

/-- Step 2 for one BOM row: skip test, component lookup, quantity parsing, deduction. -/
def processBomItem (clock : Clock) (order : Order) (variantKey : String) (quantity : Int)
    (db : DB) (bomItem : BomItem) : DB :=
  if skipBomItem bomItem then db
  else
    match findComponent db.products (bomItem.componentCode.getD "") with
    | none => db
    | some (j, component) =>
      if parseQuantity bomItem.quantity > 0 then
        deductComponent clock order variantKey quantity (parseQuantity bomItem.quantity)
          j component db
      else db

/-- The rows of the bill of materials of a variant: `(db.bom || {})[variantKey] || []`. -/
def bomItemsOf (db : DB) (variantKey : String) : List BomItem :=
  ((db.bom.getD []).lookup variantKey).getD []

/-- Step 3, the deduction for a product matched directly by its SKU. -/
def deductSimple (clock : Clock) (order : Order) (quantity : Int)
    (i : Nat) (simpleProduct : Product) (db : DB) : DB :=
  let oldStock := simpleProduct.currentStock
  let simpleProduct1 : Product :=
    { simpleProduct with currentStock := max 0 (oldStock - quantity) }
  { db with
    products := db.products.set i simpleProduct1
    transactions :=
      removalTransaction clock order db.transactions.length simpleProduct1 quantity
        (orderNote order) :: db.transactions }

/-- The branch taken when `variantKey && oilId` holds: oil lookup, step 1, then step 2
over the rows of the variant. -/
def processOil (clock : Clock) (order : Order) (variantKey sku : String) (quantity : Int)
    (db : DB) : DB :=
  match findRef (isOilFor variantKey sku) db.products with
  | some (i, oilProduct) =>
    let db1 := deductOil clock order variantKey quantity i oilProduct db
    (bomItemsOf db1 variantKey).foldl (processBomItem clock order variantKey quantity) db1
  | none => db

/-- The `else` branch, "not an oil variant": direct product match and step 3. -/
def processSimple (clock : Clock) (order : Order) (sku : Option String) (quantity : Int)
    (db : DB) : DB :=
  match findRef (hasSku sku) db.products with
  | some (i, simpleProduct) => deductSimple clock order quantity i simpleProduct db
  | none => db

/-- The body of `lineItems.forEach`. -/
def processLineItem (clock : Clock) (order : Order) (db : DB) (item : LineItem) : DB :=
  let sku := item.sku
  let quantity := numOr item.quantity 1
  match parseSku sku with
  | some (variantKey, oilId) =>
    if variantKey ≠ "" ∧ oilId ≠ "" then
      processOil clock order variantKey (sku.getD "") quantity db
    else processSimple clock order sku quantity db
  | none => processSimple clock order sku quantity db

/-- The entry put at the head of `shopify_orders`. -/
def orderLogEntry (clock : Clock) (order : Order) : OrderLog :=
  { id := numOr order.id clock.now
    orderNumber := strOr order.order_number "TEST"
    fulfillmentStatus := strOr order.fulfillment_status "fulfilled"
    lineItems := order.line_items
    receivedAt := clock.iso }

/-- The handler of `POST /api/shopify/webhook`. -/
def shopifyWebhook (clock : Clock) (order : Order) (db : DB) : Reply :=
  let db0 : DB :=
    { db with shopify_orders := some (orderLogEntry clock order :: db.shopify_orders.getD []) }
  let lineItems := order.line_items.getD []
  { status := 200
    db := lineItems.foldl (processLineItem clock order) db0 }

/-! ## `DELETE /api/bom/:variant/component/:componentCode` -/

/-- The re-sequencing `items.map ((item, index) => ({ ...item, seq: index + 1 }))`,
with `start` the index of the first element. -/
def resequenceFrom (start : Nat) : List BomItem → List BomItem
  | [] => []
  | item :: rest => { item with seq := (start : Int) + 1 } :: resequenceFrom (start + 1) rest

/-- The re-sequencing of a whole component list. -/
def resequence (items : List BomItem) : List BomItem :=
  resequenceFrom 0 items

/-- The handler of `DELETE /api/bom/:variant/component/:componentCode`. -/
def deleteBomComponent (variant componentCode : String) (db : DB) : Reply :=
  match db.bom with
  | none => { status := 404, db := db }
  | some bom =>
    match bom.lookup variant with
    | none => { status := 404, db := db }
    | some items =>
      match findIndex (fun c => c.componentCode == some componentCode) items with
      | none => { status := 404, db := db }
      | some componentIndex =>
        { status := 200
          db := { db with
            bom := some (setKey variant (resequence (items.eraseIdx componentIndex)) bom) } }

/-! ## `POST /api/users` and `DELETE /api/users/:id` -/

/-- The body of a create-user request. -/
structure CreateUserRequest where
  name : String
  password : String
  role : Option String
deriving DecidableEq, Repr

/-- The handler of `POST /api/users`; `hashSync` stands for `bcrypt.hashSync (·, 10)`. -/
def createUser (clock : Clock) (hashSync : String → String) (req : CreateUserRequest)
    (db : DB) : Reply :=
  match findRef (fun u => u.name == req.name) db.users with
  | some _ => { status := 400, db := db }
  | none =>
    let hashedPassword := hashSync req.password
    let newUser : User :=
      { id := (db.users.length : Int) + 1
        name := req.name
        password := hashedPassword
        role := strOr req.role "user"
        createdAt := clock.iso }
    { status := 200, db := { db with users := db.users ++ [newUser] } }

/-- The handler of `DELETE /api/users/:id`; `idParam` is the text of the route parameter,
and a `parseInt` that gives `NaN` matches no user. -/
def deleteUser (idParam : String) (db : DB) : Reply :=
  let userId := parseInt idParam
  let user := findRef (fun u => some u.id == userId) db.users
  match user with
  | some (_, u) =>
    if u.role = "admin" then { status := 403, db := db }
    else
      { status := 200
        db := { db with users := db.users.filter (fun u => !(some u.id == userId)) } }
  | none =>
    { status := 200
      db := { db with users := db.users.filter (fun u => !(some u.id == userId)) } }

/-- A request of the user management routes. -/
inductive UserRequest where
  | create (req : CreateUserRequest)
  | delete (idParam : String)
deriving DecidableEq, Repr

/-- The document after one user management request. -/
def applyUserRequest (clock : Clock) (hashSync : String → String) (db : DB) :
    UserRequest → DB
  | .create req => (createUser clock hashSync req db).db
  | .delete idParam => (deleteUser idParam db).db

/-- The document after a sequence of user management requests. -/
def runUserRequests (clock : Clock) (hashSync : String → String) (db : DB)
    (requests : List UserRequest) : DB :=
  requests.foldl (applyUserRequest clock hashSync) db

/-! ## `POST /api/products` -/

/-- The pieces of a character list between the occurrences of `sep`. -/
def splitChars (sep : Char) : List Char → List (List Char)
  | [] => [[]]
  | c :: cs =>
    if c = sep then [] :: splitChars sep cs
    else
      match splitChars sep cs with
      | [] => [[c]]
      | piece :: pieces => (c :: piece) :: pieces

/-- `s.split (sep)` with a one-character separator. -/
def split (s : String) (sep : Char) : List String :=
  (splitChars sep s.data).map String.mk

/-- `s.toLowerCase ()` on ASCII letters, which is all that the category names contain. -/
def toLowerCase (s : String) : String :=
  String.mk (s.data.map Char.toLower)

/-- `s.padStart (n, '0')`. -/
def padStart (s : String) (n : Nat) : String :=
  String.mk (List.replicate (n - s.length) '0' ++ s.data)

/-- The number read from a product id: `parseInt (id.split ('_')[1])`; `none` stands for
`NaN`, which is also what a missing second piece gives. -/
def idNumber (id : String) : Option Int :=
  match (split id '_')[1]? with
  | some piece => parseInt piece
  | none => none

/-- The reduction that computes `maxId`: the greatest number read from the product ids,
starting from zero; a `NaN` never wins the comparison. -/
def maxId (products : List Product) : Int :=
  products.foldl
    (fun max p =>
      match idNumber p.id with
      | some num => if num > max then num else max
      | none => max)
    0

/-- The id given to a new product of the category. -/
def newProductId (products : List Product) (category : String) : String :=
  toLowerCase category ++ "_" ++ toString (maxId products + 1)

/-- The body of a create-product request; `name`, `category` and `currentStock` are taken
to be present. -/
structure CreateProductRequest where
  name : String
  category : String
  productCode : Option String
  tag : Option String
  unit : Option String
  currentStock : Int
  minStockLevel : Option Int
  shopifySkus : Option (List (String × String))
  supplier : Option String
  supplierCode : Option String
  unitPerBox : Option Int
deriving DecidableEq, Repr

/-- The handler of `POST /api/products`. -/
def createProduct (clock : Clock) (req : CreateProductRequest) (db : DB) : Reply :=
  let maxId := maxId db.products
  let newProduct : Product :=
    { id := newProductId db.products req.category
      tag := strOr req.tag ("#" ++ req.category ++ padStart (toString (maxId + 1)) 5)
      productCode :=
        strOr req.productCode (req.category ++ "_" ++ padStart (toString (maxId + 1)) 5)
      name := req.name
      category := req.category
      unit := strOr req.unit "units"
      currentStock := req.currentStock
      minStockLevel := numOr req.minStockLevel 0
      shopifySkus := some (req.shopifySkus.getD [])
      supplier := strOr req.supplier ""
      supplierCode := strOr req.supplierCode ""
      unitPerBox := some (numOr req.unitPerBox 1)
      stockBoxes :=
        if numOr req.unitPerBox 0 = 0 then 0
        else Int.fdiv req.currentStock (numOr req.unitPerBox 0)
      createdAt := clock.iso }
  { status := 200, db := { db with products := db.products ++ [newProduct] } }

/-! ## Vocabulary of the statements -/

/-- The element `x` sits at index `i` of `l`, satisfies `p`, and nothing before it does:
it is what `l.find (p)` returns. -/
def IsFirst {α : Type} (p : α → Bool) (l : List α) (i : Nat) (x : α) : Prop :=
  l[i]? = some x ∧ p x = true ∧ ∀ j y, j < i → l[j]? = some y → p y = false

/-- The keys of `VARIANT_VOLUMES`, in iteration order. -/
def variantKeys : List String :=
  VARIANT_VOLUMES.map Prod.fst

/-- The SKU starts with none of the prefixes `K + '_'`, `K` a key of `VARIANT_VOLUMES`. -/
def NoVariantPrefix (sku : String) : Prop :=
  ∀ K ∈ variantKeys, startsWith sku (K ++ "_") = false

/-- The SKU resolves to nothing, as the claim on unresolved SKUs words it: it has no
variant-key prefix and is a `shopifySkus` value of no product, or it has a variant-key
prefix `K` and no `OILS` product has `shopifySkus[K]` equal to it. -/
def UnresolvedAsStated (products : List Product) (sku : String) : Prop :=
  (NoVariantPrefix sku ∧ ∀ p ∈ products, hasSku (some sku) p = false) ∨
  (∃ K ∈ variantKeys, startsWith sku (K ++ "_") = true ∧
    ∀ p ∈ products, isOilFor K sku p = false)

/-- The SKU resolves to nothing: as `UnresolvedAsStated`, with the text after the
variant-key prefix required not to be empty. -/
def Unresolved (products : List Product) (sku : String) : Prop :=
  (NoVariantPrefix sku ∧ ∀ p ∈ products, hasSku (some sku) p = false) ∨
  (∃ K ∈ variantKeys, ∃ rest, rest ≠ "" ∧ sku = K ++ "_" ++ rest ∧
    ∀ p ∈ products, isOilFor K sku p = false)

/-- Every product of the list has a stock that is not negative. -/
def NonNegStock (products : List Product) : Prop :=
  ∀ p ∈ products, 0 ≤ p.currentStock

/-- The entries `new` were put one after the other at the head of the ledger `old`, each
with the decimal text of (length of the ledger just before it was added, plus one) as id. -/
def DenseOn (old : List Transaction) : List Transaction → Prop
  | [] => True
  | t :: ts => t.id = toString ((ts ++ old).length + 1) ∧ DenseOn old ts

/-- The entry at position `i` from the head has the decimal text of `length - i` as id. -/
def DenseIds (ledger : List Transaction) : Prop :=
  ∀ (i : Nat) (h : i < ledger.length), ledger[i].id = toString (ledger.length - i)

/-- The ledger of `db` is the ledger `old` with entries put at its head, each numbered
from the length of the ledger at the time it was added. -/
def LedgerGrows (old : List Transaction) (db : DB) : Prop :=
  ∃ new, db.transactions = new ++ old ∧ DenseOn old new

/-- Value of a list of decimal digit characters, most significant first. -/
def decimalValue (cs : List Char) : Nat :=
  cs.foldl (fun acc c => acc * 10 + (c.toNat - 48)) 0

/-- The component code `c` resolves to the product `r` at index `j`: `r` is the first
product whose `productCode` is `c`, or there is none, `c` contains `SA_RAWM_`, and `r` is
the first product whose `productCode` is `c` with `SA_RAWM_` replaced by `SA_RM_`. -/
def ResolvesTo (products : List Product) (c : String) (j : Nat) (r : Product) : Prop :=
  IsFirst (fun p => p.productCode == c) products j r ∨
  ((∀ p ∈ products, p.productCode ≠ c) ∧ includes c "SA_RAWM_" = true ∧
    IsFirst (fun p => p.productCode == replace c "SA_RAWM_" "SA_RM_") products j r)

/-! ## Sample data -/

/-- A product with the given id, code, category, stock, SKU map and box size; the
remaining fields carry fixed values. -/
def sampleProduct (id code category : String) (stock : Int)
    (skus : Option (List (String × String))) (unitPerBox : Option Int) (boxes : Int) : Product :=
  { id := id, tag := "", productCode := code, name := code, category := category,
    unit := "units", currentStock := stock, minStockLevel := 0, shopifySkus := skus,
    supplier := "", supplierCode := "", unitPerBox := unitPerBox, stockBoxes := boxes,
    createdAt := "2024-01-01T00:00:00.000Z" }

/-- A clock reading. -/
def sampleClock : Clock :=
  { now := 1700000000000, iso := "2023-11-14T22:13:20.000Z" }

/-- An order with the given line items. -/
def sampleOrder (items : List LineItem) : Order :=
  { id := some 9001, order_number := some "1001", fulfillment_status := some "fulfilled",
    line_items := some items }

/-- A document with the given products and bill of materials, no users, an empty ledger
and an empty order log. -/
def sampleDB (products : List Product) (bom : List (String × List BomItem)) : DB :=
  { users := [], products := products, transactions := [], bom := some bom,
    shopify_orders := some [] }

/-- The oil of scenarios A and B: stock 5000 mL, sold as `SA_CA_00001`. -/
def oilA : Product :=
  sampleProduct "oils_1" "SA_OIL_00001" "OILS" 5000 (some [("SA_CA", "SA_CA_00001")]) (some 1) 0

/-- The raw material of scenario B: stock 100. -/
def capB : Product :=
  sampleProduct "raw_materials_2" "SA_RM_00010" "RAW_MATERIALS" 100 (some []) (some 1) 0

/-- The BOM row of scenario B. -/
def rowB : BomItem :=
  { seq := 1, componentCode := some "SA_RAWM_00010", componentName := "Cap",
    quantity := BomQuantity.text "2 UNIT" }

/-- The store of scenario A: the oil, and no bill of materials. -/
def dbA : DB :=
  sampleDB [oilA] []

/-- The store of scenario B: the oil, the raw material, and the one-row BOM of `SA_CA`. -/
def dbB : DB :=
  sampleDB [oilA, capB] [("SA_CA", [rowB])]

/-- A spare part sold directly as `SPARE-7`, 3 in stock, packed by 2. -/
def spareD : Product :=
  sampleProduct "machines_spares_3" "SA_MS_00003" "MACHINES_SPARES" 3
    (some [("default", "SPARE-7")]) (some 2) 1

/-- The store of scenario D. -/
def dbD : DB :=
  sampleDB [spareD] []

/-- A raw material that lists the text `SA_CA_` among its SKUs. -/
def oddSkuProduct : Product :=
  sampleProduct "raw_materials_4" "SA_RM_00004" "RAW_MATERIALS" 10
    (some [("default", "SA_CA_")]) (some 1) 0

/-- A raw material that lists the oil SKU `SA_CA_00001` among its SKUs. -/
def shadowProduct : Product :=
  sampleProduct "raw_materials_5" "SA_RM_00005" "RAW_MATERIALS" 10
    (some [("default", "SA_CA_00001")]) (some 1) 0

/-- An oil packed by 1000 mL, 5000 mL in stock, 5 boxes. -/
def boxedOil : Product :=
  sampleProduct "oils_6" "SA_OIL_00006" "OILS" 5000 (some [("SA_CA", "SA_CA_00006")]) (some 1000) 5

/-- A spare part packed by 10, 100 in stock, 10 boxes. -/
def boxedSpare : Product :=
  sampleProduct "machines_spares_7" "SA_MS_00007" "MACHINES_SPARES" 100
    (some [("default", "SPARE-10")]) (some 10) 10

/-- A three-row bill of materials whose `seq` values are not in order. -/
def bomE : List BomItem :=
  [ { seq := 7, componentCode := some "SA_RAWM_00001", componentName := "Cap",
      quantity := BomQuantity.text "1 UNIT" },
    { seq := 7, componentCode := some "SA_RAWM_00002", componentName := "Label",
      quantity := BomQuantity.num 2 },
    { seq := 0, componentCode := some "SA_RAWM_00003", componentName := "Box",
      quantity := BomQuantity.text "1" } ]

/-- A transaction that only carries an id. -/
def sampleTransaction (id : String) : Transaction :=
  { id := id, productId := "oils_1", productCode := "SA_OIL_00001", productName := "Oil",
    category := "OILS", type := "add", quantity := 1, unit := "mL", balanceAfter := 1,
    notes := "", shopifyOrderId := none, createdAt := "2024-01-01T00:00:00.000Z" }

/-- The row is one that the cascade skips, in the words of the skip rule: its
`componentCode` is missing or empty, is `PRODUCT_CODE`, or contains `Oil Cartridge`,
`Oil Refill` or `Bottle`. -/
def SkippedRow (bomItem : BomItem) : Prop :=
  bomItem.componentCode = none ∨ bomItem.componentCode = some "" ∨
  bomItem.componentCode = some "PRODUCT_CODE" ∨
  ∃ c, bomItem.componentCode = some c ∧
    (includes c "Oil Cartridge" = true ∨ includes c "Oil Refill" = true ∨
      includes c "Bottle" = true)

/-- The id of the product is its category in lower case, an underscore and a number. -/
def WellFormedId (p : Product) : Prop :=
  ∃ n : Nat, p.id = toLowerCase p.category ++ "_" ++ toString n

/-- A stand-in for `bcrypt.hashSync`. -/
def sampleHash (password : String) : String :=
  "$2a$10$" ++ password

/-- Two users without the admin role, with ids 1 and 2. -/
def dbUsers : DB :=
  { users :=
      [ { id := 1, name := "alice", password := sampleHash "a", role := "user",
          createdAt := "2024-01-01T00:00:00.000Z" },
        { id := 2, name := "bob", password := sampleHash "b", role := "user",
          createdAt := "2024-01-01T00:00:00.000Z" } ]
    products := [], transactions := [], bom := none, shopify_orders := none }

/-- The requests that delete user 1 and then create the admin `carol`. -/
def adminAfterDelete : List UserRequest :=
  [ UserRequest.delete "1",
    UserRequest.create { name := "carol", password := "c", role := some "admin" } ]

/-- A raw material with id `raw_materials_1`. -/
def rawOne : Product :=
  sampleProduct "raw_materials_1" "RAW_MATERIALS_00001" "RAW_MATERIALS" 50 (some []) (some 1) 0

/-- A request that creates a raw material. -/
def createRaw : CreateProductRequest :=
  { name := "Label", category := "RAW_MATERIALS", productCode := none, tag := none,
    unit := none, currentStock := 7, minStockLevel := none, shopifySkus := none,
    supplier := none, supplierCode := none, unitPerBox := some 2 }

/-- A finished good whose product code is the text of a BOM row that the cascade skips. -/
def bottleProduct : Product :=
  sampleProduct "oils_8" "500ml Refill Bottle" "OILS" 40 (some []) (some 1) 0

/-- A BOM row that names the finished good itself. -/
def bottleRow : BomItem :=
  { seq := 1, componentCode := some "500ml Refill Bottle", componentName := "Bottle",
    quantity := BomQuantity.num 1 }

/-! ## Lemmas on `find` -/

theorem findRef_eq_none_iff {α : Type} (p : α → Bool) (l : List α) :
    findRef p l = none ↔ ∀ y ∈ l, p y = false := by
  induction l with
  | nil => simp [findRef]
  | cons x xs ih =>
    by_cases hx : p x = true
    · simp [findRef, hx]
    · simp [findRef, hx, ih]

theorem findRef_of_isFirst {α : Type} (p : α → Bool) :
    ∀ (l : List α) (i : Nat) (x : α), IsFirst p l i x → findRef p l = some (i, x) := by
  intro l
  induction l with
  | nil => intro i x h; simp [IsFirst] at h
  | cons a as ih =>
    intro i x h
    obtain ⟨hget, hpx, hbefore⟩ := h
    cases i with
    | zero =>
      simp at hget
      subst hget
      simp [findRef, hpx]
    | succ k =>
      have ha : p a = false := hbefore 0 a (Nat.succ_pos k) (by simp)
      have hk : IsFirst p as k x := by
        refine ⟨by simpa using hget, hpx, ?_⟩
        intro j y hj hy
        exact hbefore (j + 1) y (Nat.succ_lt_succ hj) (by simpa using hy)
      simp [findRef, ha, ih k x hk]

theorem isFirst_of_findRef {α : Type} (p : α → Bool) :
    ∀ (l : List α) (i : Nat) (x : α), findRef p l = some (i, x) → IsFirst p l i x := by
  intro l
  induction l with
  | nil => intro i x h; simp [findRef] at h
  | cons a as ih =>
    intro i x h
    by_cases ha : p a = true
    · simp [findRef, ha] at h
      obtain ⟨rfl, rfl⟩ := h
      exact ⟨by simp, ha, by intro j y hj; omega⟩
    · simp only [Bool.not_eq_true] at ha
      simp [findRef, ha] at h
      obtain ⟨k, hk, rfl⟩ := h
      obtain ⟨hget, hpx, hbefore⟩ := ih k x hk
      refine ⟨by simpa using hget, hpx, ?_⟩
      intro j y hj hy
      cases j with
      | zero => simp at hy; subst hy; exact ha
      | succ m => exact hbefore m y (by omega) (by simpa using hy)

theorem findRef_isSome_of_mem {α : Type} (p : α → Bool) (l : List α) (y : α)
    (hy : y ∈ l) (hp : p y = true) : ∃ i x, findRef p l = some (i, x) := by
  cases h : findRef p l with
  | none =>
    rw [findRef_eq_none_iff] at h
    have := h y hy
    simp [hp] at this
  | some r => exact ⟨r.1, r.2, rfl⟩

/-! ## Lemmas on SKU parsing -/

theorem startsWith_append (p r : String) : startsWith (p ++ r) p = true := by
  simp [startsWith, String.data_append]

theorem eq_append_of_startsWith (s p : String) (h : startsWith s p = true) :
    ∃ r : String, s = p ++ r := by
  unfold startsWith at h
  rw [List.isPrefixOf_iff_prefix] at h
  obtain ⟨t, ht⟩ := h
  refine ⟨String.mk t, ?_⟩
  apply String.ext
  simp [String.data_append, ht]

theorem substring_append (p r : String) : substring (p ++ r) p.length = r := by
  show String.mk ((p ++ r).data.drop p.data.length) = r
  rw [String.data_append, List.drop_left]

theorem length_append_underscore (K : String) : (K ++ "_").length = K.length + 1 := by
  rw [String.length_append]; rfl

theorem mem_variantKeys (K : String) (hK : K ∈ variantKeys) :
    K = "SA_CA" ∨ K = "SA_HF" ∨ K = "SA_CDIFF" ∨ K = "SA_1L" ∨ K = "SA_PRO" := by
  simpa [variantKeys, VARIANT_VOLUMES] using hK

theorem variantKey_ne_empty (K : String) (hK : K ∈ variantKeys) : K ≠ "" := by
  rcases mem_variantKeys K hK with rfl | rfl | rfl | rfl | rfl <;> decide

theorem variant_prefix_unique (sku K K' : String)
    (hK : K ∈ variantKeys) (hK' : K' ∈ variantKeys)
    (h : startsWith sku (K ++ "_") = true) (h' : startsWith sku (K' ++ "_") = true) :
    K = K' := by
  obtain ⟨r, rfl⟩ := eq_append_of_startsWith _ _ h
  rcases mem_variantKeys K hK with rfl | rfl | rfl | rfl | rfl <;>
  rcases mem_variantKeys K' hK' with rfl | rfl | rfl | rfl | rfl <;>
  first
    | rfl
    | (exfalso; revert h'; simp [startsWith, String.data_append, List.isPrefixOf])

theorem parseSkuLoop_hit (sku K : String) (hne : sku ≠ "")
    (hst : startsWith sku (K ++ "_") = true) :
    ∀ keys : List String, K ∈ keys →
      (∀ K' ∈ keys, startsWith sku (K' ++ "_") = true → K' = K) →
      parseSkuLoop sku keys = some (K, substring sku (K.length + 1)) := by
  intro keys
  induction keys with
  | nil => intro h; simp at h
  | cons k ks ih =>
    intro hmem huniq
    by_cases hk : startsWith sku (k ++ "_") = true
    · have : k = K := huniq k (List.mem_cons_self _ _) hk
      subst this
      simp [parseSkuLoop, hne, hk]
    · have hkK : k ≠ K := by
        intro e; subst e; exact hk hst
      have hmem' : K ∈ ks := by
        rcases List.mem_cons.mp hmem with e | e
        · exact absurd e.symm hkK
        · exact e
      simp only [parseSkuLoop, hk, and_false, if_false, Bool.false_eq_true]
      exact ih hmem' (fun K' hK' => huniq K' (List.mem_cons_of_mem _ hK'))

theorem parseSku_of_startsWith (sku K : String) (hK : K ∈ variantKeys)
    (h : startsWith sku (K ++ "_") = true) :
    parseSku (some sku) = some (K, substring sku (K.length + 1)) := by
  have hne : sku ≠ "" := by
    intro e
    subst e
    revert h
    simp [startsWith, String.data_append, List.isPrefixOf]
  exact parseSkuLoop_hit sku K hne h _ hK
    (fun K' hK' h' => variant_prefix_unique sku K' K hK' hK h' h)

theorem parseSku_variant (K rest : String) (hK : K ∈ variantKeys) :
    parseSku (some (K ++ "_" ++ rest)) = some (K, rest) := by
  rw [parseSku_of_startsWith _ K hK (startsWith_append _ _), ← length_append_underscore,
    substring_append]

theorem parseSkuLoop_none (sku : String) (keys : List String)
    (h : ∀ K ∈ keys, startsWith sku (K ++ "_") = false) : parseSkuLoop sku keys = none := by
  induction keys with
  | nil => rfl
  | cons k ks ih =>
    have hk := h k (List.mem_cons_self _ _)
    simp only [parseSkuLoop, hk, and_false, if_false, Bool.false_eq_true]
    exact ih (fun K hK => h K (List.mem_cons_of_mem _ hK))

theorem parseSku_none (sku : String) (h : NoVariantPrefix sku) : parseSku (some sku) = none :=
  parseSkuLoop_none sku _ h

theorem variantKey_of_volume (K : String) (vol : Int) (h : (K, vol) ∈ VARIANT_VOLUMES) :
    K ∈ variantKeys ∧ VARIANT_VOLUMES.lookup K = some vol := by
  simp only [VARIANT_VOLUMES, List.mem_cons, List.mem_singleton, List.not_mem_nil, or_false,
    Prod.mk.injEq] at h
  rcases h with ⟨rfl, rfl⟩ | ⟨rfl, rfl⟩ | ⟨rfl, rfl⟩ | ⟨rfl, rfl⟩ | ⟨rfl, rfl⟩ <;>
    exact ⟨by decide, by decide⟩

theorem numOr_pos (q d : Int) (hq : 1 ≤ q) : numOr (some q) d = q := by
  have : q ≠ 0 := by omega
  simp [numOr, this]

/-! ## Decimal ids -/

theorem decimalValue_append_singleton (cs : List Char) (c : Char) :
    decimalValue (cs ++ [c]) = decimalValue cs * 10 + (c.toNat - 48) := by
  simp [decimalValue, List.foldl_append]

theorem digitChar_value (k : Nat) (hk : k < 10) : (Nat.digitChar k).toNat - 48 = k := by
  interval_cases k <;> rfl

theorem toDigitsCore_acc (fuel : Nat) : ∀ (n : Nat) (ds : List Char),
    Nat.toDigitsCore 10 fuel n ds = Nat.toDigitsCore 10 fuel n [] ++ ds := by
  induction fuel with
  | zero => intro n ds; simp [Nat.toDigitsCore]
  | succ f ih =>
    intro n ds
    simp only [Nat.toDigitsCore]
    split
    · simp
    · rw [ih (n / 10) (_ :: ds), ih (n / 10) [_]]
      simp

theorem decimalValue_toDigitsCore (fuel : Nat) : ∀ n : Nat, n < fuel →
    decimalValue (Nat.toDigitsCore 10 fuel n []) = n := by
  induction fuel with
  | zero => intro n h; omega
  | succ f ih =>
    intro n hn
    simp only [Nat.toDigitsCore]
    split
    · rename_i h0
      have : n < 10 := by
        by_contra hc
        have : 1 ≤ n / 10 := Nat.le_div_iff_mul_le (by decide) |>.mpr (by omega)
        omega
      simp [decimalValue, Nat.mod_eq_of_lt this, digitChar_value n this]
    · rename_i h0
      rw [toDigitsCore_acc, decimalValue_append_singleton, ih (n / 10) (by omega),
        digitChar_value _ (Nat.mod_lt n (by decide))]
      omega

theorem decimalValue_toString (n : Nat) : decimalValue (toString n).data = n := by
  show decimalValue (Nat.toDigits 10 n) = n
  exact decimalValue_toDigitsCore (n + 1) n (Nat.lt_succ_self n)

theorem toString_nat_injective (m n : Nat) (h : toString m = toString n) : m = n := by
  have := congrArg (fun s => decimalValue s.data) h
  simpa [decimalValue_toString] using this

/-! ## The ledger under the handlers -/

theorem LedgerGrows.refl (db : DB) : LedgerGrows db.transactions db :=
  ⟨[], rfl, trivial⟩

theorem LedgerGrows.push {old : List Transaction} {db db' : DB} {t : Transaction}
    (h : LedgerGrows old db) (ht : db'.transactions = t :: db.transactions)
    (hid : t.id = toString (db.transactions.length + 1)) : LedgerGrows old db' := by
  obtain ⟨new, hnew, hdense⟩ := h
  refine ⟨t :: new, by rw [ht, hnew]; rfl, ?_⟩
  exact ⟨by rw [hid, hnew], hdense⟩

theorem removalTransaction_id (clock : Clock) (order : Order) (n : Nat) (p : Product)
    (quantity : Int) (notes : String) :
    (removalTransaction clock order n p quantity notes).id = toString (n + 1) := rfl

theorem deductOil_ledger {old : List Transaction} (clock : Clock) (order : Order)
    (variantKey : String) (quantity : Int) (i : Nat) (oilProduct : Product) (db : DB)
    (h : LedgerGrows old db) :
    LedgerGrows old (deductOil clock order variantKey quantity i oilProduct db) :=
  h.push rfl rfl

theorem deductSimple_ledger {old : List Transaction} (clock : Clock) (order : Order)
    (quantity : Int) (i : Nat) (simpleProduct : Product) (db : DB)
    (h : LedgerGrows old db) :
    LedgerGrows old (deductSimple clock order quantity i simpleProduct db) :=
  h.push rfl rfl

theorem deductComponent_ledger {old : List Transaction} (clock : Clock) (order : Order)
    (variantKey : String) (quantity qty : Int) (j : Nat) (component : Product) (db : DB)
    (h : LedgerGrows old db) :
    LedgerGrows old (deductComponent clock order variantKey quantity qty j component db) :=
  h.push rfl rfl

theorem processBomItem_ledger {old : List Transaction} (clock : Clock) (order : Order)
    (variantKey : String) (quantity : Int) (db : DB) (bomItem : BomItem)
    (h : LedgerGrows old db) :
    LedgerGrows old (processBomItem clock order variantKey quantity db bomItem) := by
  unfold processBomItem
  split
  · exact h
  · split
    · exact h
    · split
      · exact deductComponent_ledger clock order variantKey quantity _ _ _ db h
      · exact h

theorem foldl_preserves {α β : Type} (P : β → Prop) (f : β → α → β)
    (hf : ∀ b a, P b → P (f b a)) : ∀ (l : List α) (b : β), P b → P (l.foldl f b) := by
  intro l
  induction l with
  | nil => intro b hb; exact hb
  | cons a as ih => intro b hb; exact ih (f b a) (hf b a hb)

theorem processOil_ledger {old : List Transaction} (clock : Clock) (order : Order)
    (variantKey sku : String) (quantity : Int) (db : DB) (h : LedgerGrows old db) :
    LedgerGrows old (processOil clock order variantKey sku quantity db) := by
  unfold processOil
  split
  · exact foldl_preserves (LedgerGrows old) _
      (fun b a hb => processBomItem_ledger clock order variantKey quantity b a hb) _ _
      (deductOil_ledger clock order variantKey quantity _ _ db h)
  · exact h

theorem processSimple_ledger {old : List Transaction} (clock : Clock) (order : Order)
    (sku : Option String) (quantity : Int) (db : DB) (h : LedgerGrows old db) :
    LedgerGrows old (processSimple clock order sku quantity db) := by
  unfold processSimple
  split
  · exact deductSimple_ledger clock order quantity _ _ db h
  · exact h

theorem processLineItem_ledger {old : List Transaction} (clock : Clock) (order : Order)
    (db : DB) (item : LineItem) (h : LedgerGrows old db) :
    LedgerGrows old (processLineItem clock order db item) := by
  unfold processLineItem
  dsimp only
  split
  · split
    · exact processOil_ledger clock order _ _ _ db h
    · exact processSimple_ledger clock order _ _ db h
  · exact processSimple_ledger clock order _ _ db h

theorem shopifyWebhook_ledger (clock : Clock) (order : Order) (db : DB) :
    LedgerGrows db.transactions (shopifyWebhook clock order db).db := by
  unfold shopifyWebhook
  exact foldl_preserves (LedgerGrows db.transactions) _
    (fun b a hb => processLineItem_ledger clock order b a hb) _ _ ⟨[], rfl, trivial⟩

theorem stockAdjust_ledger (clock : Clock) (req : AdjustRequest) (db : DB) :
    LedgerGrows db.transactions (stockAdjust clock req db).db := by
  unfold stockAdjust
  split
  · exact LedgerGrows.refl db
  · exact (LedgerGrows.refl db).push rfl rfl

/-! ## Dense ids -/

theorem denseOn_getElem (old : List Transaction) :
    ∀ (new : List Transaction), DenseOn old new →
      ∀ (j : Nat) (h : j < new.length), new[j].id = toString (old.length + new.length - j) := by
  intro new
  induction new with
  | nil => intro _ j h; simp at h
  | cons t ts ih =>
    intro hd j h
    obtain ⟨hid, hrest⟩ := hd
    cases j with
    | zero =>
      simp only [List.getElem_cons_zero, hid, List.length_append, List.length_cons]
      congr 1
      omega
    | succ k =>
      simp only [List.getElem_cons_succ, List.length_cons]
      rw [ih hrest k (by simpa using h)]
      congr 1
      omega

theorem denseIds_append (old new : List Transaction) (hold : DenseIds old)
    (hnew : DenseOn old new) : DenseIds (new ++ old) := by
  intro i h
  by_cases hi : i < new.length
  · rw [List.getElem_append_left hi, denseOn_getElem old new hnew i hi]
    congr 1
    simp only [List.length_append]
    omega
  · have hi' : new.length ≤ i := Nat.le_of_not_lt hi
    rw [List.getElem_append_right hi', hold]
    congr 1
    simp only [List.length_append]
    omega

theorem denseIds_nodup (ledger : List Transaction) (h : DenseIds ledger) :
    (ledger.map (fun t => t.id)).Nodup := by
  rw [List.nodup_iff_injective_get]
  intro a b hab
  have ha : a.val < ledger.length := by simpa using a.isLt
  have hb : b.val < ledger.length := by simpa using b.isLt
  simp only [List.get_eq_getElem, List.getElem_map] at hab
  rw [h a.val ha, h b.val hb] at hab
  have := toString_nat_injective _ _ hab
  apply Fin.ext
  omega

/-! ## Stock never goes below zero in the webhook -/

theorem updateBoxes_currentStock (p : Product) : (updateBoxes p).currentStock = p.currentStock := by
  unfold updateBoxes
  split
  · split <;> rfl
  · rfl

theorem nonNeg_set (products : List Product) (i : Nat) (p : Product)
    (h : NonNegStock products) (hp : 0 ≤ p.currentStock) : NonNegStock (products.set i p) := by
  intro x hx
  rcases List.mem_or_eq_of_mem_set hx with hmem | rfl
  · exact h x hmem
  · exact hp

theorem processBomItem_nonNeg (clock : Clock) (order : Order) (variantKey : String)
    (quantity : Int) (db : DB) (bomItem : BomItem) (h : NonNegStock db.products) :
    NonNegStock (processBomItem clock order variantKey quantity db bomItem).products := by
  unfold processBomItem
  split
  · exact h
  · split
    · exact h
    · split
      · exact nonNeg_set _ _ _ h (by rw [updateBoxes_currentStock]; exact le_max_left _ _)
      · exact h

theorem processLineItem_nonNeg (clock : Clock) (order : Order) (db : DB) (item : LineItem)
    (h : NonNegStock db.products) :
    NonNegStock (processLineItem clock order db item).products := by
  have hsimple : ∀ sku quantity,
      NonNegStock (processSimple clock order sku quantity db).products := by
    intro sku quantity
    unfold processSimple
    split
    · exact nonNeg_set _ _ _ h (le_max_left _ _)
    · exact h
  have hoil : ∀ variantKey sku quantity,
      NonNegStock (processOil clock order variantKey sku quantity db).products := by
    intro variantKey sku quantity
    unfold processOil
    split
    · exact foldl_preserves (fun d : DB => NonNegStock d.products) _
        (fun b a hb => processBomItem_nonNeg clock order variantKey quantity b a hb) _ _
        (nonNeg_set _ _ _ h (le_max_left _ _))
    · exact h
  unfold processLineItem
  dsimp only
  split
  · split
    · exact hoil _ _ _
    · exact hsimple _ _
  · exact hsimple _ _

/-- The webhook keeps every stock at or above zero, whatever the order. -/
theorem shopifyWebhook_nonNeg (clock : Clock) (order : Order) (db : DB)
    (h : NonNegStock db.products) :
    NonNegStock (shopifyWebhook clock order db).db.products := by
  unfold shopifyWebhook
  exact foldl_preserves (fun d : DB => NonNegStock d.products) _
    (fun b a hb => processLineItem_nonNeg clock order b a hb) _ _ h

/-- A manual adjustment of type `add` with a quantity that is not negative keeps every
stock at or above zero. -/
theorem stockAdjust_add_nonNeg (clock : Clock) (req : AdjustRequest) (db : DB)
    (h : NonNegStock db.products) (hadd : req.type = "add") (hq : 0 ≤ req.quantity) :
    NonNegStock (stockAdjust clock req db).db.products := by
  unfold stockAdjust
  split
  · exact h
  · rename_i i product hfind
    have hmem : product ∈ db.products :=
      List.getElem?_mem (isFirst_of_findRef _ _ _ _ hfind).1
    have := h product hmem
    refine nonNeg_set _ _ _ h ?_
    rw [updateBoxes_currentStock]
    simp only [hadd, if_true]
    omega

/-! ## The claims -/

/-- C1 (the code breaks the claim): a manual adjustment of type `remove` whose quantity
exceeds the stock is not clamped. On a store whose only product has stock 3, removing 10
answers 200 and leaves the product with stock -7, recorded as `balanceAfter` -7. -/
theorem stockAdjust_remove_goes_negative :
    NonNegStock dbD.products ∧
    (stockAdjust sampleClock
      { productId := "machines_spares_3", quantity := 10, type := "remove", notes := none }
      dbD).status = 200 ∧
    (stockAdjust sampleClock
      { productId := "machines_spares_3", quantity := 10, type := "remove", notes := none }
      dbD).db.products.map (fun p => p.currentStock) = [-7] ∧
    (stockAdjust sampleClock
      { productId := "machines_spares_3", quantity := 10, type := "remove", notes := none }
      dbD).db.transactions.map (fun t => t.balanceAfter) = [-7] := by
  refine ⟨?_, by decide, by decide, by decide⟩
  intro p hp
  simp only [dbD, sampleDB, List.mem_singleton] at hp
  subst hp
  decide

/-! ## Reading the lookup predicates -/

theorem isOilFor_iff (variantKey sku : String) (p : Product) :
    isOilFor variantKey sku p = true ↔
      p.category = "OILS" ∧ ∃ skus, p.shopifySkus = some skus ∧ skus.lookup variantKey = some sku := by
  unfold isOilFor
  cases h : p.shopifySkus with
  | none => simp
  | some skus => simp

theorem hasSku_iff (sku : String) (p : Product) :
    hasSku (some sku) p = true ↔
      ∃ skus, p.shopifySkus = some skus ∧ ∃ key, (key, sku) ∈ skus := by
  unfold hasSku
  cases h : p.shopifySkus with
  | none => simp
  | some skus => simp

theorem findComponent_of_resolvesTo (products : List Product) (c : String) (j : Nat)
    (r : Product) (h : ResolvesTo products c j r) : findComponent products c = some (j, r) := by
  unfold findComponent
  rcases h with h | ⟨hnone, hinc, h⟩
  · rw [findRef_of_isFirst _ _ _ _ h]
  · have : findRef (fun p => p.productCode == c) products = none := by
      rw [findRef_eq_none_iff]
      intro y hy
      simpa using hnone y hy
    rw [this]
    simp only [hinc, if_true]
    exact findRef_of_isFirst _ _ _ _ h

theorem processLineItem_oil (clock : Clock) (order : Order) (db : DB) (K rest : String)
    (q : Int) (hK : K ∈ variantKeys) (hrest : rest ≠ "") (hq : 1 ≤ q) :
    processLineItem clock order db { sku := some (K ++ "_" ++ rest), quantity := some q } =
      processOil clock order K (K ++ "_" ++ rest) q db := by
  unfold processLineItem
  simp only [parseSku_variant K rest hK, numOr_pos q 1 hq, Option.getD_some]
  rw [if_pos ⟨variantKey_ne_empty K hK, hrest⟩]

theorem processLineItem_simple (clock : Clock) (order : Order) (db : DB) (sku : String)
    (q : Int) (hsku : NoVariantPrefix sku) (hq : 1 ≤ q) :
    processLineItem clock order db { sku := some sku, quantity := some q } =
      processSimple clock order (some sku) q db := by
  unfold processLineItem
  simp only [parseSku_none sku hsku, numOr_pos q 1 hq]

/-- C2: the oil step. For a line item whose SKU is `K_rest` with `K` a key of
`VARIANT_VOLUMES` (volume `vol`), `rest` not empty and quantity `q ≥ 1`, and `p` the first
product of category `OILS` with `shopifySkus[K]` equal to the SKU, step 1 sets the stock of
`p` to `max 0 (old - vol * q)` and puts at the head of the ledger one transaction for `p`
of type `remove`, quantity `vol * q` and `balanceAfter` the new stock; the line item is this
step followed by the BOM rows of `K`, so with no BOM row it is this step alone. -/
theorem oil_deduction_step (clock : Clock) (order : Order) (db : DB) (K rest : String)
    (vol q : Int) (i : Nat) (p : Product)
    (hK : (K, vol) ∈ VARIANT_VOLUMES) (hrest : rest ≠ "") (hq : 1 ≤ q)
    (hp : IsFirst (isOilFor K (K ++ "_" ++ rest)) db.products i p) :
    (deductOil clock order K q i p db).products =
        db.products.set i { p with currentStock := max 0 (p.currentStock - vol * q) } ∧
    (∃ t, (deductOil clock order K q i p db).transactions = t :: db.transactions ∧
        t.productId = p.id ∧ t.type = "remove" ∧ t.quantity = vol * q ∧
        t.balanceAfter = max 0 (p.currentStock - vol * q)) ∧
    processLineItem clock order db { sku := some (K ++ "_" ++ rest), quantity := some q } =
        (bomItemsOf db K).foldl (processBomItem clock order K q)
          (deductOil clock order K q i p db) ∧
    (bomItemsOf db K = [] →
      processLineItem clock order db { sku := some (K ++ "_" ++ rest), quantity := some q } =
        deductOil clock order K q i p db) := by
  obtain ⟨hkey, hvol⟩ := variantKey_of_volume K vol hK
  have hline : processLineItem clock order db
      { sku := some (K ++ "_" ++ rest), quantity := some q } =
      (bomItemsOf db K).foldl (processBomItem clock order K q)
        (deductOil clock order K q i p db) := by
    rw [processLineItem_oil clock order db K rest q hkey hrest hq]
    unfold processOil
    rw [findRef_of_isFirst _ _ _ _ hp]
    rfl
  refine ⟨?_, ⟨_, rfl, rfl, rfl, ?_, ?_⟩, hline, ?_⟩
  · simp [deductOil, hvol]
  · simp [removalTransaction, hvol]
  · simp [removalTransaction, hvol]
  · intro hempty
    rw [hline, hempty]
    rfl

/-- Scenario A: stock 5000, SKU `SA_CA_00001`, quantity 2 give stock 4200 and one
transaction of quantity 800. -/
theorem oil_deduction_step_witness :
    (processLineItem sampleClock (sampleOrder []) dbA
        { sku := some "SA_CA_00001", quantity := some 2 }).products =
      [{ oilA with currentStock := 4200 }] ∧
    (processLineItem sampleClock (sampleOrder []) dbA
        { sku := some "SA_CA_00001", quantity := some 2 }).transactions.map
        (fun t => (t.id, t.productId, t.type, t.quantity, t.balanceAfter)) =
      [("1", "oils_1", "remove", 800, 4200)] := by
  have h := oil_deduction_step sampleClock (sampleOrder []) dbA "SA_CA" "00001" 400 2 0 oilA
    (by decide) (by decide) (by decide)
    (isFirst_of_findRef _ _ _ _ (by decide))
  have hline := h.2.2.2 (by decide)
  have hprod := h.1
  constructor
  · exact (congrArg DB.products hline).trans (hprod.trans (by decide))
  · rw [show ({ sku := some "SA_CA_00001", quantity := some 2 } : LineItem) =
      { sku := some ("SA_CA" ++ "_" ++ "00001"), quantity := some 2 } from by decide, hline]
    decide

/-- C3: the BOM cascade on one row. When the row is not skipped, its `componentCode` `c`
resolves to the product `r` at index `j` (exact `productCode`, or after turning `SA_RAWM_`
into `SA_RM_` when there is no exact match and `c` contains `SA_RAWM_`) and its quantity
parses to `n > 0`, then for ordered quantity `q` the row sets the stock of `r` to
`max 0 (old - n * q)`, updates its boxes, leaves the other products as they are, and puts
at the head of the ledger exactly one transaction for `r` of type `remove`, quantity
`n * q` and `balanceAfter` the new stock. -/
theorem bom_component_deduction (clock : Clock) (order : Order) (K : String) (q : Int)
    (db : DB) (bomItem : BomItem) (c : String) (j : Nat) (r : Product) (n : Int)
    (hskip : skipBomItem bomItem = false) (hc : bomItem.componentCode = some c)
    (hr : ResolvesTo db.products c j r)
    (hn : parseQuantity bomItem.quantity = n) (hpos : 0 < n) :
    ∃ (r1 : Product) (t : Transaction),
      (processBomItem clock order K q db bomItem).products = db.products.set j r1 ∧
      r1 = updateBoxes { r with currentStock := max 0 (r.currentStock - n * q) } ∧
      r1.currentStock = max 0 (r.currentStock - n * q) ∧
      (processBomItem clock order K q db bomItem).transactions = t :: db.transactions ∧
      t.productId = r.id ∧ t.type = "remove" ∧ t.quantity = n * q ∧
      t.balanceAfter = max 0 (r.currentStock - n * q) := by
  have hfind := findComponent_of_resolvesTo db.products c j r hr
  have hstep : processBomItem clock order K q db bomItem =
      deductComponent clock order K q n j r db := by
    unfold processBomItem
    rw [hskip, hc]
    simp only [Bool.false_eq_true, if_false, Option.getD_some, hfind, hn, gt_iff_lt, hpos,
      if_true]
  have hid : ∀ x : Product, (updateBoxes x).id = x.id := by
    intro x
    unfold updateBoxes
    split
    · split <;> rfl
    · rfl
  refine ⟨updateBoxes { r with currentStock := max 0 (r.currentStock - n * q) }, _,
    by rw [hstep]; rfl, rfl, updateBoxes_currentStock _, by rw [hstep]; rfl, ?_, rfl, rfl, ?_⟩
  · show (updateBoxes _).id = r.id
    rw [hid]
  · show (updateBoxes _).currentStock = _
    rw [updateBoxes_currentStock]

/-- Scenario B: component `SA_RAWM_00010` with quantity `2 UNIT`, product `SA_RM_00010`
with stock 100 and ordered quantity 2 give stock 96; in the whole webhook this is the
second transaction, after the one of the oil. -/
theorem bom_component_deduction_witness :
    (processBomItem sampleClock (sampleOrder []) "SA_CA" 2 dbB rowB).products =
      [oilA, { capB with currentStock := 96 }] ∧
    (processBomItem sampleClock (sampleOrder []) "SA_CA" 2 dbB rowB).transactions.map
        (fun t => (t.productId, t.type, t.quantity, t.balanceAfter)) =
      [("raw_materials_2", "remove", 4, 96)] ∧
    (shopifyWebhook sampleClock
        (sampleOrder [{ sku := some "SA_CA_00001", quantity := some 2 }]) dbB).db.products =
      [{ oilA with currentStock := 4200 }, { capB with currentStock := 96 }] ∧
    (shopifyWebhook sampleClock
        (sampleOrder [{ sku := some "SA_CA_00001", quantity := some 2 }])
        dbB).db.transactions.map
        (fun t => (t.id, t.productId, t.type, t.quantity, t.balanceAfter)) =
      [("2", "raw_materials_2", "remove", 4, 96), ("1", "oils_1", "remove", 800, 4200)] := by
  obtain ⟨r1, t, hprod, hr1, _, hledger, hpid, htype, hqty, hbal⟩ :=
    bom_component_deduction sampleClock (sampleOrder []) "SA_CA" 2 dbB rowB "SA_RAWM_00010" 1
      capB 2 (by decide) (by decide)
      (Or.inr ⟨by decide, by decide, isFirst_of_findRef _ _ _ _ (by decide)⟩)
      (by decide) (by decide)
  refine ⟨?_, ?_, by decide, by decide⟩
  · rw [hprod, hr1]
    decide
  · rw [hledger]
    simp only [List.map, hpid, htype, hqty, hbal]
    decide

/-- C4: the direct-match deduction. For a line item whose SKU has no variant-key prefix,
with quantity `q ≥ 1`, and `p` the first product that has the SKU among the values of its
`shopifySkus`, the line item sets the stock of `p` to `max 0 (old - q)`, puts at the head of
the ledger exactly one transaction (for `p`, type `remove`, quantity `q`, `balanceAfter` the
new stock) and leaves every other product as it is. -/
theorem direct_match_deduction (clock : Clock) (order : Order) (db : DB) (sku : String)
    (q : Int) (i : Nat) (p : Product)
    (hsku : NoVariantPrefix sku) (hq : 1 ≤ q)
    (hp : IsFirst (hasSku (some sku)) db.products i p) :
    (processLineItem clock order db { sku := some sku, quantity := some q }).products =
        db.products.set i { p with currentStock := max 0 (p.currentStock - q) } ∧
    (∃ t, (processLineItem clock order db { sku := some sku, quantity := some q }).transactions
          = t :: db.transactions ∧
        t.productId = p.id ∧ t.type = "remove" ∧ t.quantity = q ∧
        t.balanceAfter = max 0 (p.currentStock - q)) ∧
    (∀ j, j ≠ i →
      (processLineItem clock order db { sku := some sku, quantity := some q }).products[j]? =
        db.products[j]?) := by
  have hline : processLineItem clock order db { sku := some sku, quantity := some q } =
      deductSimple clock order q i p db := by
    rw [processLineItem_simple clock order db sku q hsku hq]
    unfold processSimple
    rw [findRef_of_isFirst _ _ _ _ hp]
  rw [hline]
  refine ⟨rfl, ⟨_, rfl, rfl, rfl, rfl, rfl⟩, ?_⟩
  intro j hj
  show (db.products.set i _)[j]? = _
  rw [List.getElem?_set_ne (Ne.symm hj)]

/-- Scenario D: deducting 10 from a stock of 3 gives stock 0 and `balanceAfter` 0. -/
theorem direct_match_deduction_witness :
    (processLineItem sampleClock (sampleOrder []) dbD
        { sku := some "SPARE-7", quantity := some 10 }).products.map
        (fun p => p.currentStock) = [0] ∧
    (processLineItem sampleClock (sampleOrder []) dbD
        { sku := some "SPARE-7", quantity := some 10 }).transactions.map
        (fun t => (t.productId, t.type, t.quantity, t.balanceAfter)) =
      [("machines_spares_3", "remove", 10, 0)] := by
  obtain ⟨hprod, ⟨t, hledger, hpid, htype, hqty, hbal⟩, _⟩ :=
    direct_match_deduction sampleClock (sampleOrder []) dbD "SPARE-7" 10 0 spareD
      (by unfold NoVariantPrefix; decide) (by decide)
      (isFirst_of_findRef _ _ _ _ (by decide))
  constructor
  · rw [hprod]
    decide
  · rw [hledger]
    simp only [List.map, hpid, htype, hqty, hbal]
    decide

/-! ## Line items that resolve to nothing -/

theorem foldl_fixed {α β : Type} (f : β → α → β) (b : β) :
    ∀ l : List α, (∀ a ∈ l, f b a = b) → l.foldl f b = b := by
  intro l
  induction l with
  | nil => intro _; rfl
  | cons a as ih =>
    intro h
    rw [List.foldl_cons, h a (List.mem_cons_self _ _)]
    exact ih (fun x hx => h x (List.mem_cons_of_mem _ hx))

theorem processLineItem_variant (clock : Clock) (order : Order) (db : DB) (K rest : String)
    (quantity : Option Int) (hK : K ∈ variantKeys) (hrest : rest ≠ "") :
    processLineItem clock order db { sku := some (K ++ "_" ++ rest), quantity := quantity } =
      processOil clock order K (K ++ "_" ++ rest) (numOr quantity 1) db := by
  unfold processLineItem
  simp only [parseSku_variant K rest hK, Option.getD_some]
  rw [if_pos ⟨variantKey_ne_empty K hK, hrest⟩]

theorem processOil_none (clock : Clock) (order : Order) (K sku : String) (quantity : Int)
    (db : DB) (h : ∀ p ∈ db.products, isOilFor K sku p = false) :
    processOil clock order K sku quantity db = db := by
  unfold processOil
  rw [(findRef_eq_none_iff _ _).mpr h]

theorem processSimple_none (clock : Clock) (order : Order) (sku : Option String)
    (quantity : Int) (db : DB) (h : ∀ p ∈ db.products, hasSku sku p = false) :
    processSimple clock order sku quantity db = db := by
  unfold processSimple
  rw [(findRef_eq_none_iff _ _).mpr h]

theorem processLineItem_unresolved (clock : Clock) (order : Order) (db : DB)
    (sku : String) (quantity : Option Int) (h : Unresolved db.products sku) :
    processLineItem clock order db { sku := some sku, quantity := quantity } = db := by
  rcases h with ⟨hno, hval⟩ | ⟨K, hK, rest, hrest, rfl, hoil⟩
  · unfold processLineItem
    simp only [parseSku_none sku hno]
    exact processSimple_none clock order _ _ db hval
  · rw [processLineItem_variant clock order db K rest quantity hK hrest]
    exact processOil_none clock order K _ _ db hoil

/-- C5 as stated fails: the SKU `SA_CA_` has the variant-key prefix `SA_CA_` and no `OILS`
product has `shopifySkus[SA_CA]` equal to it, yet the text after the prefix is empty, so the
webhook takes the direct-match path and deducts from the raw material that lists `SA_CA_`
among its SKUs: its stock goes from 10 to 9 and the ledger gets an entry. -/
theorem unresolved_sku_counterexample :
    (∀ item ∈ [({ sku := some "SA_CA_", quantity := some 1 } : LineItem)],
      ∃ s, item.sku = some s ∧ UnresolvedAsStated (sampleDB [oddSkuProduct] []).products s) ∧
    (shopifyWebhook sampleClock (sampleOrder [{ sku := some "SA_CA_", quantity := some 1 }])
      (sampleDB [oddSkuProduct] [])).db.products.map (fun p => p.currentStock) = [9] ∧
    (shopifyWebhook sampleClock (sampleOrder [{ sku := some "SA_CA_", quantity := some 1 }])
      (sampleDB [oddSkuProduct] [])).db.transactions.length = 1 := by
  refine ⟨?_, by decide, by decide⟩
  intro item hitem
  rw [List.mem_singleton] at hitem
  subst hitem
  exact ⟨"SA_CA_", rfl, Or.inr ⟨"SA_CA", by decide, by decide, by decide⟩⟩

/-- C5, amended: when every line item of the order has a SKU that resolves to nothing
(no variant-key prefix and a `shopifySkus` value of no product, or of the form `K_rest`
with `K` a variant key, `rest` not empty and no `OILS` product with `shopifySkus[K]` equal
to it), the webhook answers 200 and the document afterwards is the document before with
one entry for this order put at the head of `shopify_orders`: products, ledger, users and
BOM are what they were. -/
theorem unresolved_skus_only_logged (clock : Clock) (order : Order) (db : DB)
    (h : ∀ item ∈ order.line_items.getD [],
      ∃ s, item.sku = some s ∧ Unresolved db.products s) :
    shopifyWebhook clock order db =
      { status := 200
        db := { db with
          shopify_orders := some (orderLogEntry clock order :: db.shopify_orders.getD []) } } ∧
    (shopifyWebhook clock order db).db.products = db.products ∧
    (shopifyWebhook clock order db).db.transactions = db.transactions := by
  have hmain : shopifyWebhook clock order db =
      { status := 200
        db := { db with
          shopify_orders := some (orderLogEntry clock order :: db.shopify_orders.getD []) } } := by
    unfold shopifyWebhook
    simp only
    rw [foldl_fixed]
    intro item hitem
    obtain ⟨s, hs, hun⟩ := h item hitem
    obtain ⟨sku, quantity⟩ := item
    simp only at hs
    subst hs
    exact processLineItem_unresolved clock order _ s quantity hun
  exact ⟨hmain, by rw [hmain], by rw [hmain]⟩

/-- An order with an unknown SKU and an oil SKU of a variant that no oil is sold in:
nothing but the order log changes. -/
theorem unresolved_skus_only_logged_witness :
    (shopifyWebhook sampleClock
      (sampleOrder [{ sku := some "UNKNOWN-1", quantity := some 1 },
        { sku := some "SA_HF_00001", quantity := some 3 }]) dbB).db.products = dbB.products ∧
    (shopifyWebhook sampleClock
      (sampleOrder [{ sku := some "UNKNOWN-1", quantity := some 1 },
        { sku := some "SA_HF_00001", quantity := some 3 }]) dbB).db.transactions = [] ∧
    ((shopifyWebhook sampleClock
      (sampleOrder [{ sku := some "UNKNOWN-1", quantity := some 1 },
        { sku := some "SA_HF_00001", quantity := some 3 }]) dbB).db.shopify_orders.getD []).map
        (fun o => o.orderNumber) = ["1001"] := by
  have h := unresolved_skus_only_logged sampleClock
    (sampleOrder [{ sku := some "UNKNOWN-1", quantity := some 1 },
      { sku := some "SA_HF_00001", quantity := some 3 }]) dbB (by
      intro item hitem
      simp only [sampleOrder, Option.getD_some, List.mem_cons, List.mem_singleton,
        List.not_mem_nil, or_false] at hitem
      rcases hitem with rfl | rfl
      · exact ⟨"UNKNOWN-1", rfl, Or.inl ⟨by unfold NoVariantPrefix; decide, by decide⟩⟩
      · exact ⟨"SA_HF_00001", rfl,
          Or.inr ⟨"SA_HF", by decide, "00001", by decide, by decide, by decide⟩⟩)
  refine ⟨h.2.1, h.2.2, ?_⟩
  rw [h.1]
  decide

/-- C6 as stated fails: the SKU `SA_CA_` begins with `SA_CA_` and no `OILS` product has
`shopifySkus[SA_CA]` equal to it, but the oil id is empty, so the line item goes through
the direct-match path: the raw material that lists `SA_CA_` loses one unit and a
transaction is written. -/
theorem variant_sku_direct_match_counterexample :
    startsWith "SA_CA_" ("SA_CA" ++ "_") = true ∧
    (∀ p ∈ (sampleDB [oddSkuProduct] []).products, isOilFor "SA_CA" "SA_CA_" p = false) ∧
    processLineItem sampleClock (sampleOrder []) (sampleDB [oddSkuProduct] [])
        { sku := some "SA_CA_", quantity := some 1 } =
      processSimple sampleClock (sampleOrder []) (some "SA_CA_") 1
        (sampleDB [oddSkuProduct] []) ∧
    (processLineItem sampleClock (sampleOrder []) (sampleDB [oddSkuProduct] [])
        { sku := some "SA_CA_", quantity := some 1 }).products =
      [{ oddSkuProduct with currentStock := 9 }] ∧
    (processLineItem sampleClock (sampleOrder []) (sampleDB [oddSkuProduct] [])
        { sku := some "SA_CA_", quantity := some 1 }).transactions.map
        (fun t => (t.productId, t.type, t.quantity)) = [("raw_materials_4", "remove", 1)] := by
  refine ⟨by decide, by decide, by decide, by decide, by decide⟩

/-- C6, amended: for a line item whose SKU is `K_rest` with `K` a key of `VARIANT_VOLUMES`
and `rest` not empty, the line item is the oil branch, whose lookup is `isOilFor`
(category `OILS` and `shopifySkus[K]` equal to the SKU); the direct-match branch is not
taken, so when no `OILS` product has `shopifySkus[K]` equal to the SKU the document is left
as it is, whatever the other products list among their SKUs. -/
theorem variant_sku_strict_match (clock : Clock) (order : Order) (db : DB) (K rest : String)
    (quantity : Option Int) (hK : K ∈ variantKeys) (hrest : rest ≠ "") :
    processLineItem clock order db { sku := some (K ++ "_" ++ rest), quantity := quantity } =
        processOil clock order K (K ++ "_" ++ rest) (numOr quantity 1) db ∧
    ((∀ p ∈ db.products,
        ¬ (p.category = "OILS" ∧
          ∃ skus, p.shopifySkus = some skus ∧ skus.lookup K = some (K ++ "_" ++ rest))) →
      processLineItem clock order db { sku := some (K ++ "_" ++ rest), quantity := quantity }
        = db) := by
  have hline := processLineItem_variant clock order db K rest quantity hK hrest
  refine ⟨hline, ?_⟩
  intro hnone
  rw [hline]
  apply processOil_none
  intro p hp
  have := hnone p hp
  rw [← isOilFor_iff] at this
  simpa using this

/-- A raw material lists the oil SKU `SA_CA_00001` among its SKUs and no oil does: the
line item leaves the document as it is. -/
theorem variant_sku_strict_match_witness :
    (∃ p ∈ (sampleDB [shadowProduct] []).products, hasSku (some "SA_CA_00001") p = true) ∧
    processLineItem sampleClock (sampleOrder []) (sampleDB [shadowProduct] [])
        { sku := some "SA_CA_00001", quantity := some 2 } = sampleDB [shadowProduct] [] := by
  refine ⟨⟨shadowProduct, by decide, by decide⟩, ?_⟩
  exact (variant_sku_strict_match sampleClock (sampleOrder []) (sampleDB [shadowProduct] [])
    "SA_CA" "00001" (some 2) (by decide) (by decide)).2 (by
      intro p hp
      simp only [sampleDB, List.mem_singleton] at hp
      subst hp
      decide)

/-- C7 (the code breaks the claim): the direct-match deduction and the oil deduction of
the webhook change `currentStock` without recomputing `stockBoxes`. A spare part packed by
10 with stock 100 and 10 boxes, sold 5 times, ends with stock 95 and still 10 boxes, where
`floor (95 / 10)` is 9; an oil packed by 1000 with stock 5000 and 5 boxes, sold twice as
`SA_CA`, ends with stock 4200 and still 5 boxes, where `floor (4200 / 1000)` is 4. The
manual adjustment and the BOM-component deduction do recompute the boxes on the same
product. -/
theorem webhook_leaves_stockBoxes_stale :
    (processLineItem sampleClock (sampleOrder []) (sampleDB [boxedSpare] [])
        { sku := some "SPARE-10", quantity := some 5 }).products.map
        (fun p => (p.unitPerBox, p.currentStock, p.stockBoxes)) = [(some 10, 95, 10)] ∧
    Int.fdiv 95 10 = 9 ∧
    (processLineItem sampleClock (sampleOrder []) (sampleDB [boxedOil] [])
        { sku := some "SA_CA_00006", quantity := some 2 }).products.map
        (fun p => (p.unitPerBox, p.currentStock, p.stockBoxes)) = [(some 1000, 4200, 5)] ∧
    Int.fdiv 4200 1000 = 4 ∧
    (stockAdjust sampleClock
        { productId := "machines_spares_7", quantity := 5, type := "remove", notes := none }
        (sampleDB [boxedSpare] [])).db.products.map
        (fun p => (p.unitPerBox, p.currentStock, p.stockBoxes)) = [(some 10, 95, 9)] ∧
    (processBomItem sampleClock (sampleOrder []) "SA_CA" 5 (sampleDB [boxedSpare] [])
        { seq := 1, componentCode := some "SA_MS_00007", componentName := "Spare",
          quantity := BomQuantity.num 1 }).products.map
        (fun p => (p.unitPerBox, p.currentStock, p.stockBoxes)) = [(some 10, 95, 9)] := by
  refine ⟨by decide, by decide, by decide, by decide, by decide, by decide⟩

/-- C8: the ledger is append-only with insertion at the head. After a stock adjustment and
after a webhook request the ledger is a list of new entries followed by the ledger as it
was before the request, unchanged and in the same order; so its length does not decrease. -/
theorem ledger_append_only (clock : Clock) (req : AdjustRequest) (order : Order) (db : DB) :
    (∃ new, (stockAdjust clock req db).db.transactions = new ++ db.transactions) ∧
    (∃ new, (shopifyWebhook clock order db).db.transactions = new ++ db.transactions) ∧
    db.transactions.length ≤ (stockAdjust clock req db).db.transactions.length ∧
    db.transactions.length ≤ (shopifyWebhook clock order db).db.transactions.length := by
  obtain ⟨newA, hA, _⟩ := stockAdjust_ledger clock req db
  obtain ⟨newW, hW, _⟩ := shopifyWebhook_ledger clock order db
  refine ⟨⟨newA, hA⟩, ⟨newW, hW⟩, ?_, ?_⟩
  · rw [hA, List.length_append]; omega
  · rw [hW, List.length_append]; omega

/-- C9: transaction ids are a dense counter. The entries that a stock adjustment or a
webhook request puts at the head of the ledger each get as id the decimal text of (ledger
length just before that entry was added, plus one). So when, before the request, the entry
at position `i` from the head has id `decimal (length - i)`, the same holds afterwards, and
the ids of the ledger are pairwise distinct. -/
theorem ledger_ids_dense (clock : Clock) (req : AdjustRequest) (order : Order) (db : DB) :
    (∃ new, (stockAdjust clock req db).db.transactions = new ++ db.transactions ∧
      DenseOn db.transactions new ∧
      ∀ (j : Nat) (h : j < new.length),
        new[j].id = toString (db.transactions.length + new.length - j)) ∧
    (∃ new, (shopifyWebhook clock order db).db.transactions = new ++ db.transactions ∧
      DenseOn db.transactions new ∧
      ∀ (j : Nat) (h : j < new.length),
        new[j].id = toString (db.transactions.length + new.length - j)) ∧
    (DenseIds db.transactions →
      DenseIds (stockAdjust clock req db).db.transactions ∧
      ((stockAdjust clock req db).db.transactions.map (fun t => t.id)).Nodup ∧
      DenseIds (shopifyWebhook clock order db).db.transactions ∧
      ((shopifyWebhook clock order db).db.transactions.map (fun t => t.id)).Nodup) := by
  obtain ⟨newA, hA, hdA⟩ := stockAdjust_ledger clock req db
  obtain ⟨newW, hW, hdW⟩ := shopifyWebhook_ledger clock order db
  refine ⟨⟨newA, hA, hdA, denseOn_getElem _ _ hdA⟩, ⟨newW, hW, hdW, denseOn_getElem _ _ hdW⟩, ?_⟩
  intro hold
  have h1 : DenseIds (stockAdjust clock req db).db.transactions := by
    rw [hA]; exact denseIds_append _ _ hold hdA
  have h2 : DenseIds (shopifyWebhook clock order db).db.transactions := by
    rw [hW]; exact denseIds_append _ _ hold hdW
  exact ⟨h1, denseIds_nodup _ h1, h2, denseIds_nodup _ h2⟩

/-- A ledger with ids 2, 1 and the order of scenario B: the webhook puts two entries at the
head, with ids 4 and 3. -/
theorem ledger_ids_dense_witness :
    DenseIds [sampleTransaction "2", sampleTransaction "1"] ∧
    DenseIds (shopifyWebhook sampleClock
      (sampleOrder [{ sku := some "SA_CA_00001", quantity := some 2 }])
      { dbB with transactions := [sampleTransaction "2", sampleTransaction "1"] }).db.transactions ∧
    (shopifyWebhook sampleClock
      (sampleOrder [{ sku := some "SA_CA_00001", quantity := some 2 }])
      { dbB with transactions := [sampleTransaction "2", sampleTransaction "1"] }).db.transactions.map
        (fun t => t.id) = ["4", "3", "2", "1"] := by
  have hold : DenseIds [sampleTransaction "2", sampleTransaction "1"] := by
    intro i h
    have hi : i < 2 := h
    interval_cases i <;> rfl
  exact ⟨hold,
    ((ledger_ids_dense sampleClock
      { productId := "oils_1", quantity := 1, type := "add", notes := none }
      (sampleOrder [{ sku := some "SA_CA_00001", quantity := some 2 }])
      { dbB with transactions := [sampleTransaction "2", sampleTransaction "1"] }).2.2 hold).2.2.1,
    by decide⟩

/-! ## Re-sequencing of a bill of materials -/

theorem resequenceFrom_length (items : List BomItem) :
    ∀ start : Nat, (resequenceFrom start items).length = items.length := by
  induction items with
  | nil => intro _; rfl
  | cons b bs ih => intro start; simp [resequenceFrom, ih]

theorem resequenceFrom_getElem? (items : List BomItem) :
    ∀ (start k : Nat), (resequenceFrom start items)[k]? =
      (items[k]?).map (fun b => { b with seq := ((start + k : Nat) : Int) + 1 }) := by
  induction items with
  | nil => intro _ _; simp [resequenceFrom]
  | cons b bs ih =>
    intro start k
    cases k with
    | zero => simp [resequenceFrom]
    | succ m =>
      simp only [resequenceFrom, List.getElem?_cons_succ]
      rw [ih (start + 1) m]
      have : start + 1 + m = start + (m + 1) := by omega
      rw [this]

theorem resequenceFrom_seq (items : List BomItem) :
    ∀ start : Nat, (resequenceFrom start items).map (fun b => b.seq) =
      (List.range' start items.length).map (fun (k : Nat) => (k : Int) + 1) := by
  induction items with
  | nil => intro _; rfl
  | cons b bs ih =>
    intro start
    simp [resequenceFrom, ih, List.range']

theorem lookup_setKey {β : Type} (key : String) (value : β) :
    ∀ (m : List (String × β)), (setKey key value m).lookup key = some value := by
  intro m
  induction m with
  | nil => simp [setKey, List.lookup]
  | cons e es ih =>
    obtain ⟨k, v⟩ := e
    by_cases hk : k = key
    · subst hk
      simp [setKey, List.lookup]
    · have hk' : (key == k) = false := by
        simpa using fun h => hk h.symm
      simp [setKey, hk, List.lookup, hk', ih]

/-- C10: BOM re-sequencing on delete. When the component list of the variant contains a
component with code `c`, whatever its `seq` values, the delete request answers 200 and the
list afterwards is the old one without its first entry with that code, the remaining
entries in their order with all fields but `seq` unchanged, and the entry at 1-based
position `k + 1` has `seq = k + 1`: the `seq` values are 1, 2, ..., N. -/
theorem bom_delete_resequences (variant c : String) (db : DB)
    (bom : List (String × List BomItem)) (items : List BomItem)
    (hbom : db.bom = some bom) (hitems : bom.lookup variant = some items)
    (hc : ∃ b ∈ items, b.componentCode = some c) :
    ∃ (i : Nat) (x : BomItem) (items1 : List BomItem),
      IsFirst (fun b => b.componentCode == some c) items i x ∧
      (deleteBomComponent variant c db).status = 200 ∧
      ((deleteBomComponent variant c db).db.bom.getD []).lookup variant = some items1 ∧
      items1.length + 1 = items.length ∧
      (∀ k : Nat, items1[k]? =
        ((items.eraseIdx i)[k]?).map (fun b => { b with seq := (k : Int) + 1 })) ∧
      items1.map (fun b => b.seq) = (List.range' 1 items1.length).map (fun (k : Nat) => (k : Int)) := by
  obtain ⟨b, hb, hbc⟩ := hc
  obtain ⟨i, x, hfind⟩ := findRef_isSome_of_mem (fun b => b.componentCode == some c) items b hb
    (by simp [hbc])
  have hfirst := isFirst_of_findRef _ _ _ _ hfind
  have hi : i < items.length := by
    have := hfirst.1
    exact (List.getElem?_eq_some_iff.mp this).1
  have hdel : deleteBomComponent variant c db =
      { status := 200
        db := { db with bom := some (setKey variant (resequence (items.eraseIdx i)) bom) } } := by
    unfold deleteBomComponent
    rw [hbom]
    simp only [hitems, findIndex, hfind, Option.map_some']
  refine ⟨i, x, resequence (items.eraseIdx i), hfirst, by rw [hdel], ?_, ?_, ?_, ?_⟩
  · rw [hdel]
    exact lookup_setKey variant _ bom
  · unfold resequence
    rw [resequenceFrom_length, List.length_eraseIdx, if_pos hi]
    omega
  · intro k
    unfold resequence
    rw [resequenceFrom_getElem?]
    simp
  · unfold resequence
    rw [resequenceFrom_seq, resequenceFrom_length]
    have : ∀ (n s : Nat), (List.range' s n).map (fun (k : Nat) => (k : Int) + 1) =
        (List.range' (s + 1) n).map (fun (k : Nat) => (k : Int)) := by
      intro n
      induction n with
      | zero => intro s; rfl
      | succ m ih => intro s; simp [List.range', ih]
    exact this _ 0

/-- Scenario E: deleting the last component of a three-row list leaves two components with
`seq` 1 and 2, the first two rows of the old list. -/
theorem bom_delete_resequences_witness :
    ((deleteBomComponent "SA_CA" "SA_RAWM_00003" (sampleDB [] [("SA_CA", bomE)])).db.bom.getD
        []).lookup "SA_CA" =
      some [ { seq := 1, componentCode := some "SA_RAWM_00001", componentName := "Cap",
               quantity := BomQuantity.text "1 UNIT" },
             { seq := 2, componentCode := some "SA_RAWM_00002", componentName := "Label",
               quantity := BomQuantity.num 2 } ] := by
  obtain ⟨i, x, items1, hfirst, _, hlookup, hlen, hget, _⟩ :=
    bom_delete_resequences "SA_CA" "SA_RAWM_00003" (sampleDB [] [("SA_CA", bomE)])
      [("SA_CA", bomE)] bomE rfl (by decide)
      ⟨{ seq := 0, componentCode := some "SA_RAWM_00003", componentName := "Box",
         quantity := BomQuantity.text "1" }, by decide, rfl⟩
  have hi : i = 2 := by
    have h1 := findRef_of_isFirst _ _ _ _ hfirst
    have h2 : findRef (fun b => b.componentCode == some "SA_RAWM_00003") bomE =
        some (2, bomE[2]) := by decide
    rw [h2] at h1
    exact (congrArg (fun o => (o.map Prod.fst).getD 0) h1).symm
  subst hi
  rw [hlookup]
  congr 1
  apply List.ext_getElem?
  intro k
  rw [hget k]
  match k with
  | 0 => rfl
  | 1 => rfl
  | (n + 2) => rfl

/-! ## Skipped BOM rows -/

theorem skipBomItem_of_skippedRow (bomItem : BomItem) (h : SkippedRow bomItem) :
    skipBomItem bomItem = true := by
  unfold skipBomItem
  rcases h with h | h | h | ⟨c, h, hc⟩
  · rw [h]
  · rw [h]; rfl
  · rw [h]; rfl
  · rw [h]
    rcases hc with hc | hc | hc <;> simp [hc]

/-- C11: skipped BOM rows deduct nothing. A row whose `componentCode` is missing or empty,
is `PRODUCT_CODE`, or contains `Oil Cartridge`, `Oil Refill` or `Bottle` leaves the whole
document as it is: no stock changes and no transaction is added, whatever the products
are, also when one of them has that text as `productCode`. -/
theorem skipped_bom_row_deducts_nothing (clock : Clock) (order : Order) (K : String)
    (q : Int) (db : DB) (bomItem : BomItem) (h : SkippedRow bomItem) :
    processBomItem clock order K q db bomItem = db ∧
    (processBomItem clock order K q db bomItem).products = db.products ∧
    (processBomItem clock order K q db bomItem).transactions = db.transactions := by
  have hmain : processBomItem clock order K q db bomItem = db := by
    unfold processBomItem
    rw [skipBomItem_of_skippedRow bomItem h]
    rfl
  exact ⟨hmain, by rw [hmain], by rw [hmain]⟩

/-- A row named `500ml Refill Bottle` is skipped although a product has this very
`productCode` and the quantity of the row is 1. -/
theorem skipped_bom_row_deducts_nothing_witness :
    (∃ p ∈ (sampleDB [bottleProduct] []).products,
      some p.productCode = bottleRow.componentCode) ∧
    parseQuantity bottleRow.quantity = 1 ∧
    processBomItem sampleClock (sampleOrder []) "SA_HF" 3 (sampleDB [bottleProduct] [])
      bottleRow = sampleDB [bottleProduct] [] :=
  ⟨⟨bottleProduct, by decide, by decide⟩, by decide,
    (skipped_bom_row_deducts_nothing sampleClock (sampleOrder []) "SA_HF" 3
      (sampleDB [bottleProduct] []) bottleRow
      (Or.inr (Or.inr (Or.inr ⟨"500ml Refill Bottle", rfl, Or.inr (Or.inr (by decide))⟩)))).1⟩

/-! ## Deleting users -/

/-- With pairwise distinct user ids, a delete-user request keeps every admin user, and
answers 403 when its id is the id of an admin user. -/
theorem deleteUser_keeps_admin_of_nodup (idParam : String) (db : DB)
    (hids : (db.users.map (fun u => u.id)).Nodup) (u : User) (hu : u ∈ db.users)
    (hadmin : u.role = "admin") :
    u ∈ (deleteUser idParam db).db.users ∧
    (parseInt idParam = some u.id → (deleteUser idParam db).status = 403) := by
  unfold deleteUser
  simp only
  cases hfind : findRef (fun u => some u.id == parseInt idParam) db.users with
  | none =>
    have hno := (findRef_eq_none_iff _ _).mp hfind u hu
    refine ⟨?_, ?_⟩
    · simp only [List.mem_filter]
      exact ⟨hu, by simpa using hno⟩
    · intro hp
      rw [hp] at hno
      simp at hno
  | some r =>
    obtain ⟨i, x⟩ := r
    obtain ⟨hget, hpx, _⟩ := isFirst_of_findRef _ _ _ _ hfind
    have hx : x ∈ db.users := List.getElem?_mem hget
    have hxid : parseInt idParam = some x.id := by
      have : some x.id = parseInt idParam := by simpa using hpx
      exact this.symm
    have hsame : parseInt idParam = some u.id → u = x := by
      intro hp
      have hid : u.id = x.id := by
        rw [hp] at hxid
        exact Option.some.inj hxid
      exact List.inj_on_of_nodup_map hids hu hx hid
    by_cases hrole : x.role = "admin"
    · simp only [hrole, if_true]
      exact ⟨hu, fun _ => trivial⟩
    · simp only [hrole, if_false]
      refine ⟨?_, ?_⟩
      · simp only [List.mem_filter]
        refine ⟨hu, ?_⟩
        have : ¬ (some u.id = parseInt idParam) := by
          intro h
          have := hsame h.symm
          subst this
          exact hrole hadmin
        simpa using this
      · intro hp
        have := hsame hp
        subst this
        exact absurd hadmin hrole

/-- C12 (the code breaks the claim): from a store with the two non-admin users 1 and 2,
deleting user 1 and creating the admin `carol` gives `carol` the id `users.length + 1 = 2`,
which user `bob` already has. The delete request for id 2 then finds `bob` first, who is
no admin, answers 200 and filters out every user with id 2, the admin included. -/
theorem delete_user_removes_admin :
    (dbUsers.users.map (fun u => u.id)).Nodup ∧
    (runUserRequests sampleClock sampleHash dbUsers adminAfterDelete).users.map
        (fun u => (u.id, u.name, u.role)) = [(2, "bob", "user"), (2, "carol", "admin")] ∧
    (deleteUser "2" (runUserRequests sampleClock sampleHash dbUsers adminAfterDelete)).status
        = 200 ∧
    (deleteUser "2" (runUserRequests sampleClock sampleHash dbUsers adminAfterDelete)).db.users
        = [] := by
  refine ⟨by decide, by decide, by decide, by decide⟩

/-! ## Order of the variant table -/

theorem parseSkuLoop_some (sku K oilId : String) :
    ∀ keys : List String, parseSkuLoop sku keys = some (K, oilId) →
      K ∈ keys ∧ startsWith sku (K ++ "_") = true ∧ oilId = substring sku (K.length + 1) := by
  intro keys
  induction keys with
  | nil => intro h; simp [parseSkuLoop] at h
  | cons k ks ih =>
    intro h
    by_cases hk : sku ≠ "" ∧ startsWith sku (k ++ "_") = true
    · rw [parseSkuLoop, if_pos hk] at h
      have h1 := Option.some.inj h
      have hK : k = K := congrArg Prod.fst h1
      have ho : substring sku (k.length + 1) = oilId := congrArg Prod.snd h1
      subst hK
      exact ⟨List.mem_cons_self _ _, hk.2, ho.symm⟩
    · rw [parseSkuLoop, if_neg hk] at h
      obtain ⟨hmem, hst, ho⟩ := ih h
      exact ⟨List.mem_cons_of_mem _ hmem, hst, ho⟩

theorem ne_empty_of_startsWith_variant (sku K : String)
    (h : startsWith sku (K ++ "_") = true) : sku ≠ "" := by
  obtain ⟨r, rfl⟩ := eq_append_of_startsWith _ _ h
  intro e
  have := congrArg String.length e
  rw [String.length_append, length_append_underscore] at this
  simp at this

/-- C13: SKU parsing does not depend on the order of the table. The keys of
`VARIANT_VOLUMES` are the five listed ones; a SKU starts with `K_` for at most one of them;
so the loop gives the same answer (the same pair, or nothing) on every reordering of the
keys; and when it gives a pair `(variantKey, oilId)`, the SKU is `variantKey_oilId`. -/
theorem sku_parsing_unambiguous (sku : String) :
    variantKeys = ["SA_CA", "SA_HF", "SA_CDIFF", "SA_1L", "SA_PRO"] ∧
    (∀ K ∈ variantKeys, ∀ K1 ∈ variantKeys,
      startsWith sku (K ++ "_") = true → startsWith sku (K1 ++ "_") = true → K = K1) ∧
    (∀ keys : List String, keys.Perm variantKeys →
      parseSkuLoop sku keys = parseSku (some sku)) ∧
    (∀ K oilId, parseSku (some sku) = some (K, oilId) → K ++ "_" ++ oilId = sku) := by
  refine ⟨rfl, ?_, ?_, ?_⟩
  · intro K hK K1 hK1 h h1
    exact variant_prefix_unique sku K K1 hK hK1 h h1
  · intro keys hperm
    by_cases hex : ∃ K ∈ variantKeys, startsWith sku (K ++ "_") = true
    · obtain ⟨K, hK, hst⟩ := hex
      rw [parseSku_of_startsWith sku K hK hst]
      refine parseSkuLoop_hit sku K (ne_empty_of_startsWith_variant sku K hst) hst keys
        (hperm.mem_iff.mpr hK) ?_
      intro K1 hK1 h1
      exact variant_prefix_unique sku K1 K (hperm.mem_iff.mp hK1) hK h1 hst
    · have hnone : ∀ K ∈ variantKeys, startsWith sku (K ++ "_") = false := by
        intro K hK
        cases hst : startsWith sku (K ++ "_") with
        | false => rfl
        | true => exact absurd ⟨K, hK, hst⟩ hex
      rw [parseSku_none sku hnone]
      exact parseSkuLoop_none sku keys (fun K hK => hnone K (hperm.mem_iff.mp hK))
  · intro K oilId h
    obtain ⟨_, hst, ho⟩ := parseSkuLoop_some sku K oilId _ h
    obtain ⟨r, rfl⟩ := eq_append_of_startsWith _ _ hst
    rw [ho, ← length_append_underscore, substring_append]

/-- The SKU `SA_CDIFF_00003` parses to `(SA_CDIFF, 00003)` also when the keys are tried
in reverse order. -/
theorem sku_parsing_unambiguous_witness :
    parseSkuLoop "SA_CDIFF_00003" variantKeys.reverse = some ("SA_CDIFF", "00003") ∧
    "SA_CDIFF" ++ "_" ++ "00003" = "SA_CDIFF_00003" :=
  ⟨((sku_parsing_unambiguous "SA_CDIFF_00003").2.2.1 variantKeys.reverse
      (List.reverse_perm variantKeys)).trans (by decide),
    (sku_parsing_unambiguous "SA_CDIFF_00003").2.2.2 "SA_CDIFF" "00003" (by decide)⟩

/-- C14 (the code breaks the claim): `id.split ('_')[1]` is the text between the first
and the second underscore, so for `raw_materials_1` it is `materials`, `parseInt` gives
`NaN` and the id does not count in `maxId`. On a store whose only product is
`raw_materials_1`, creating a product of category `RAW_MATERIALS` computes `maxId = 0` and
gives the new product the id `raw_materials_1` again. -/
theorem create_product_duplicates_id :
    ((sampleDB [rawOne] []).products.map (fun p => p.id)).Nodup ∧
    (∀ p ∈ (sampleDB [rawOne] []).products, WellFormedId p) ∧
    split "raw_materials_1" '_' = ["raw", "materials", "1"] ∧
    idNumber "raw_materials_1" = none ∧
    maxId (sampleDB [rawOne] []).products = 0 ∧
    newProductId (sampleDB [rawOne] []).products "RAW_MATERIALS" = "raw_materials_1" ∧
    (createProduct sampleClock createRaw (sampleDB [rawOne] [])).status = 200 ∧
    (createProduct sampleClock createRaw (sampleDB [rawOne] [])).db.products.map
        (fun p => p.id) = ["raw_materials_1", "raw_materials_1"] := by
  refine ⟨by decide, ?_, by decide, by decide, by decide, by decide, by decide, by decide⟩
  intro p hp
  simp only [sampleDB, List.mem_singleton] at hp
  subst hp
  exact ⟨1, by decide⟩

end SASys
